import Mathlib

/-!
# A verification development for `tdd-part2-go` (`main.go`)

The program is a miniature xUnit framework: `RunTest` drives one test case through
`SetUp`, the test method named by `GetName()`, and `TearDown`; `RunTestMethod` isolates a
panic of the test method with `defer`/`recover`; `TestResult` counts; `TestSuite`/`RunTests`
run a slice of test cases into one shared result.

## Embedding

* Go code that may panic is a function into `Outcome α`: it either returns, or panics with a
  value, and in both cases leaves a state behind (all state of the program is reached through
  pointers, so the writes made before a panic stay visible).
* Go's `int` is modelled as `Int` with every addition reduced by `wrapInt` (two's complement,
  64 bits).
* A test object is a state of a type `σ`.  What `reflect.ValueOf(t).MethodByName(name)` and
  `t.GetName()` do is given by an `ITestCase σ`: `MethodByName` yields `none` for the zero
  `reflect.Value` (`IsValid() == false`) and otherwise the effect of
  `Call([]reflect.Value{})` on the receiver.
* A suite holds pointers; pointers are addresses (`Nat`) into a `Heap σ`.
-/

namespace TddPart2

/-! ## Control flow: returning and panicking -/

/-- Result of running a piece of Go code on a mutable state: it returned, or it is panicking
with a value.  The state written so far is kept in both cases.  The value of a panic is never
`nil` (since Go 1.21 `panic(nil)` panics with a `*runtime.PanicNilError`), so it is a
message. -/
inductive Outcome (α : Type) where
  | returned (a : α)
  | panicked (a : α) (v : String)
  deriving DecidableEq, Repr

/-- The state left behind. -/
def Outcome.state {α : Type} : Outcome α → α
  | .returned a => a
  | .panicked a _ => a

/-- What `recover()` yields when called by a deferred function once the body is over:
`nil` (here `none`) when the body returned, the panic value otherwise. -/
def Outcome.recover {α : Type} : Outcome α → Option String
  | .returned _ => none
  | .panicked _ v => some v

/-- The code returned to its caller. -/
def Outcome.isReturned {α : Type} : Outcome α → Bool
  | .returned _ => true
  | .panicked _ _ => false

/-! ## Go's `int` -/

/-- Two's complement reduction of a mathematical integer to Go's 64 bit `int`. -/
def wrapInt (x : Int) : Int := (x + 2 ^ 63) % 2 ^ 64 - 2 ^ 63

/-- The largest `int`. -/
def maxInt : Int := 2 ^ 63 - 1

/-- The smallest `int`. -/
def minInt : Int := -(2 ^ 63)

/-- The mathematical integers that are values of Go's `int`. -/
def isInt (x : Int) : Prop := minInt ≤ x ∧ x ≤ maxInt

instance (x : Int) : Decidable (isInt x) := by unfold isInt; infer_instance

/-! ## `fmt.Sprintf` with the verb `%d` -/

/-- The character of one decimal digit, `byte('0' + d)`. -/
def digitByte (d : Nat) : Char := Char.ofNat (48 + d)

/-- The digit loop of `fmt.(*fmt).fmtInteger` for base 10, writing from the end of the
buffer: `for u >= 10 { next := u / 10; buf[i] = byte('0' + u - next*10); u = next }`,
then the leading digit.  The first argument bounds the number of iterations. -/
def fmtDigits : Nat → Nat → List Char → List Char
  | 0, u, buf => digitByte u :: buf
  | fuel + 1, u, buf =>
    if u ≥ 10 then fmtDigits fuel (u / 10) (digitByte (u - (u / 10) * 10) :: buf)
    else digitByte u :: buf

/-- The verb `%d` on an integer: a minus sign when negative, then the digits of the
magnitude. -/
def fmtInteger (v : Int) : List Char :=
  let u := v.natAbs
  let digits := fmtDigits u u []
  if v < 0 then '-' :: digits else digits

/-- The formatting loop of `Sprintf`, for formats whose only verb is `%d`: text is copied,
each `%d` consumes the next operand, `%%` is a percent sign, and a `%d` without operand
prints `%!d(MISSING)`. -/
def doPrintf : List Char → List Int → List Char
  | [], _ => []
  | '%' :: 'd' :: rest, a :: args => fmtInteger a ++ doPrintf rest args
  | '%' :: 'd' :: rest, [] => "%!d(MISSING)".toList ++ doPrintf rest []
  | '%' :: '%' :: rest, args => '%' :: doPrintf rest args
  | c :: rest, args => c :: doPrintf rest args

/-- The call `fmt.Sprintf(format, args...)` with integer operands. -/
def Sprintf (format : String) (args : List Int) : String :=
  String.mk (doPrintf format.toList args)

/-! ## Test Result -/

/-- The struct `TestResult`. -/
structure TestResult where
  RunCount : Int
  ErrorCount : Int
  deriving DecidableEq, Repr

/-- The value `&TestResult{}`: both counters zero. -/
def TestResult.fresh : TestResult := { RunCount := 0, ErrorCount := 0 }

/-- The method `TestStarted`: `r.RunCount = r.RunCount + 1`. -/
def TestResult.TestStarted (r : TestResult) : TestResult :=
  { r with RunCount := wrapInt (r.RunCount + 1) }

/-- The method `TestFailed`: `r.ErrorCount = r.ErrorCount + 1`. -/
def TestResult.TestFailed (r : TestResult) : TestResult :=
  { r with ErrorCount := wrapInt (r.ErrorCount + 1) }

/-- The method `Summary`. -/
def TestResult.Summary (r : TestResult) : String :=
  Sprintf "%d run, %d failed" [r.RunCount, r.ErrorCount]

/-! ## TestCase -/

/-- What the engine uses of a test object whose state has type `σ`: the interface method
`GetName`, and the method lookup of `reflect`: `MethodByName recv name` is `none` when the
method set of the receiver has no exported method `name`, and otherwise the effect of calling
it without arguments (a method that wants arguments panics in `Call` and leaves the state
alone). -/
structure ITestCase (σ : Type) where
  GetName : σ → String
  MethodByName : σ → String → Option (σ → Outcome σ)

/-- The call `method.Call([]reflect.Value{})` on the result of a lookup: calling the zero
`Value` panics. -/
def reflectCall {σ : Type} (method : Option (σ → Outcome σ)) (t : σ) : Outcome σ :=
  match method with
  | some f => f t
  | none => .panicked t "reflect: call of reflect.Value.Call on zero Value"

/-- The function `RunTestMethod`.  The body looks the method up by `t.GetName()` and calls it;
the deferred function then runs, calls `recover()`, and records a failure when the value is
not `nil`.  As the deferred function recovers, the function returns to its caller. -/
def RunTestMethod {σ : Type} (c : ITestCase σ) (t : σ) (r : TestResult) :
    Outcome (σ × TestResult) :=
  let body : Outcome σ :=
    let method := c.MethodByName t (c.GetName t)
    reflectCall method t
  let err := body.recover
  let r := if err ≠ none then r.TestFailed else r
  .returned (body.state, r)

/-- The function `RunTest`. -/
def RunTest {σ : Type} (c : ITestCase σ) (t : σ) (result : TestResult) :
    Outcome (σ × TestResult) :=
  let result := result.TestStarted
  let setUp := c.MethodByName t "SetUp"
  let afterSetUp : Outcome σ := if setUp.isSome then reflectCall setUp t else .returned t
  match afterSetUp with
  | .panicked t v => .panicked (t, result) v
  | .returned t =>
    match RunTestMethod c t result with
    | .panicked p v => .panicked p v
    | .returned (t, result) =>
      let tearDown := c.MethodByName t "TearDown"
      let afterTearDown : Outcome σ :=
        if tearDown.isSome then reflectCall tearDown t else .returned t
      match afterTearDown with
      | .panicked t v => .panicked (t, result) v
      | .returned t => .returned (t, result)

/-! ## Test Suite -/

/-- The objects the pointers of a suite refer to. -/
abbrev Heap (σ : Type) := Nat → σ

/-- The struct `TestSuite`: the slice `Tests` of (pointers to) test cases. -/
structure TestSuite where
  Tests : List Nat
  deriving DecidableEq, Repr

/-- The method `Add`: `s.Tests = append(s.Tests, test)`. -/
def TestSuite.Add (s : TestSuite) (test : Nat) : TestSuite :=
  { s with Tests := s.Tests ++ [test] }

/-- The `for _, test := range s.Tests` loop of `RunTests` over the remaining elements.  A
panic leaving `RunTest` leaves the loop. -/
def runLoop {σ : Type} (c : ITestCase σ) : List Nat → Heap σ → TestResult →
    Outcome (Heap σ × TestResult)
  | [], h, result => .returned (h, result)
  | test :: rest, h, result =>
    match RunTest c (h test) result with
    | .panicked (t, result) v => .panicked (Function.update h test t, result) v
    | .returned (t, result) => runLoop c rest (Function.update h test t) result

/-- The function `RunTests`. -/
def RunTests {σ : Type} (c : ITestCase σ) (s : TestSuite) (h : Heap σ) (result : TestResult) :
    Outcome (Heap σ × TestResult) :=
  runLoop c s.Tests h result

/-! ## WasRun -/

/-- The struct `WasRun`; `Name` is the field of the embedded `TestCase`, and `wasRun` is the
field `WasRun` (a field cannot carry the name of its structure here). -/
structure WasRun where
  Name : String
  wasRun : Int
  Log : String
  deriving DecidableEq, Repr

/-- The value `&WasRun{TestCase: TestCase{name}}`. -/
def WasRun.new (name : String) : WasRun := { Name := name, wasRun := 0, Log := "" }

/-- The promoted method `(*TestCase).GetName`. -/
def WasRun.GetName (w : WasRun) : String := w.Name

/-- The method `(*WasRun).SetUp`. -/
def WasRun.SetUp (w : WasRun) : Outcome WasRun :=
  .returned { w with wasRun := -1, Log := "SetUp " }

/-- The method `(*WasRun).TestMethod`. -/
def WasRun.TestMethod (w : WasRun) : Outcome WasRun :=
  .returned { w with wasRun := 1, Log := w.Log ++ "TestMethod " }

/-- The method `(*WasRun).TestBrokenMethod`. -/
def WasRun.TestBrokenMethod (w : WasRun) : Outcome WasRun :=
  .panicked w "Broken Method"

/-- The method `(*WasRun).TearDown`. -/
def WasRun.TearDown (w : WasRun) : Outcome WasRun :=
  .returned { w with wasRun := 1, Log := w.Log ++ "TearDown " }

/-- The method set of `*WasRun` as `reflect` sees it. -/
def WasRun.MethodByName (name : String) : Option (WasRun → Outcome WasRun) :=
  if name = "GetName" then some (fun w => .returned w)
  else if name = "SetUp" then some WasRun.SetUp
  else if name = "TestMethod" then some WasRun.TestMethod
  else if name = "TestBrokenMethod" then some WasRun.TestBrokenMethod
  else if name = "TearDown" then some WasRun.TearDown
  else none

/-- The type `*WasRun` as an `ITestCase`. -/
def WasRun.iTestCase : ITestCase WasRun where
  GetName := WasRun.GetName
  MethodByName := fun _ name => WasRun.MethodByName name

/-! ## Notions used to state the properties -/

/-- A fixture hook as `RunTest` treats it: looked up by name on the receiver, called when the
lookup is valid, skipped otherwise. -/
def hook {σ : Type} (c : ITestCase σ) (name : String) (t : σ) : Outcome σ :=
  if (c.MethodByName t name).isSome then reflectCall (c.MethodByName t name) t else .returned t

/-- The test-method step on its own: the lookup by `GetName()` and the call, without the
recovery around it. -/
def testMethodStep {σ : Type} (c : ITestCase σ) (t : σ) : Outcome σ :=
  reflectCall (c.MethodByName t (c.GetName t)) t

/-- The counters of `r` with `runs` added to `RunCount` and `errors` to `ErrorCount`, in Go's
arithmetic. -/
def TestResult.plus (r : TestResult) (runs errors : Int) : TestResult :=
  { RunCount := wrapInt (r.RunCount + runs), ErrorCount := wrapInt (r.ErrorCount + errors) }

/-- A `TestResult` of the program: both counters are values of `int`. -/
def TestResult.valid (r : TestResult) : Prop := isInt r.RunCount ∧ isInt r.ErrorCount

instance (r : TestResult) : Decidable r.valid := by unfold TestResult.valid; infer_instance

/-- What one `RunTest` does to the test object alone: `SetUp` (when present), the recovered
test-method step, `TearDown` (when present).  It returns exactly when both hooks do. -/
def lifecycle {σ : Type} (c : ITestCase σ) (t : σ) : Outcome σ :=
  match hook c "SetUp" t with
  | .panicked t1 v => .panicked t1 v
  | .returned t1 => hook c "TearDown" (testMethodStep c t1).state

/-- The test-method invocation of one `RunTest` on this object fails: the step is reached
(`SetUp` did not panic) and the call panics, be it in the method or in `Call` on an unresolved
name. -/
def methodFails {σ : Type} (c : ITestCase σ) (t : σ) : Bool :=
  match hook c "SetUp" t with
  | .panicked _ _ => false
  | .returned t1 => decide ((testMethodStep c t1).recover ≠ none)

/-- The hooks of all test cases complete normally when the test cases are run in this order
from this heap. -/
def hooksComplete {σ : Type} (c : ITestCase σ) : List Nat → Heap σ → Bool
  | [], _ => true
  | test :: rest, h =>
    (lifecycle c (h test)).isReturned
      && hooksComplete c rest (Function.update h test (lifecycle c (h test)).state)

/-- The number of test cases whose test-method invocation fails when the test cases are run in
this order from this heap. -/
def failures {σ : Type} (c : ITestCase σ) : List Nat → Heap σ → Nat
  | [], _ => 0
  | test :: rest, h =>
    (if methodFails c (h test) then 1 else 0)
      + failures c rest (Function.update h test (lifecycle c (h test)).state)

/-- The heap after the test cases have been run in this order. -/
def heapAfter {σ : Type} (c : ITestCase σ) : List Nat → Heap σ → Heap σ
  | [], h => h
  | test :: rest, h => heapAfter c rest (Function.update h test (lifecycle c (h test)).state)

/-- The number of test cases that are started when the test cases are run in this order from
this heap: all of them, or those up to the first one with a hook that panics. -/
def startedCount {σ : Type} (c : ITestCase σ) : List Nat → Heap σ → Nat
  | [], _ => 0
  | test :: rest, h =>
    if (lifecycle c (h test)).isReturned
    then 1 + startedCount c rest (Function.update h test (lifecycle c (h test)).state)
    else 1

/-! ### The suite of `Test_TestSuite` -/

/-- The two objects `Test_TestSuite` allocates: address 0 holds the `WasRun` named
"TestMethod", address 1 (and, the heap being total, every other one) the `WasRun` named
"TestBrokenMethod". -/
def Test_TestSuite.heap : Heap WasRun :=
  fun a => if a = 0 then WasRun.new "TestMethod" else WasRun.new "TestBrokenMethod"

/-- The suite `Test_TestSuite` assembles: `TestSuite{}` with both objects added. -/
def Test_TestSuite.suite : TestSuite := (TestSuite.Add (TestSuite.Add { Tests := [] } 0) 1)

/-! ### A test case with a broken fixture

The program has no test case whose `SetUp` panics.  This is one, as a user of the framework
could write it:

    type BrokenSetUp struct{ TestCase }
    func (b *BrokenSetUp) SetUp()      { panic("Broken SetUp") }
    func (b *BrokenSetUp) TestMethod() {}
-/

/-- The struct `BrokenSetUp`: only the embedded `TestCase`. -/
structure BrokenSetUp where
  Name : String
  deriving DecidableEq, Repr

/-- The method `(*BrokenSetUp).SetUp`. -/
def BrokenSetUp.SetUp (b : BrokenSetUp) : Outcome BrokenSetUp := .panicked b "Broken SetUp"

/-- The method `(*BrokenSetUp).TestMethod`. -/
def BrokenSetUp.TestMethod (b : BrokenSetUp) : Outcome BrokenSetUp := .returned b

/-- The type `*BrokenSetUp` as an `ITestCase`. -/
def BrokenSetUp.iTestCase : ITestCase BrokenSetUp where
  GetName := fun b => b.Name
  MethodByName := fun _ name =>
    if name = "GetName" then some (fun b => .returned b)
    else if name = "SetUp" then some BrokenSetUp.SetUp
    else if name = "TestMethod" then some BrokenSetUp.TestMethod
    else none

/-! ### Decimal numerals -/

/-- The decimal numeral of a natural number: its base 10 digits, most significant first,
`0` for zero. -/
def decimalNat (n : Nat) : List Char :=
  if n = 0 then ['0'] else ((Nat.digits 10 n).reverse.map Nat.digitChar)

/-- The decimal rendering of an integer, without padding: a minus sign for a negative number,
then the numeral of its magnitude. -/
def decimal (v : Int) : String :=
  String.mk (if v < 0 then '-' :: decimalNat v.natAbs else decimalNat v.natAbs)

/-! ### Sequences of calls on a `TestResult` -/

/-- A call of one of the two mutating methods of `TestResult`. -/
inductive Call where
  | TestStarted
  | TestFailed
  deriving DecidableEq, Repr

/-- The effect of one call. -/
def Call.apply : Call → TestResult → TestResult
  | .TestStarted, r => r.TestStarted
  | .TestFailed, r => r.TestFailed

/-- The effect of a sequence of calls, first call first. -/
def applyCalls (calls : List Call) (r : TestResult) : TestResult :=
  calls.foldl (fun r call => call.apply r) r

/-! ## Common Method -/

/-- The function `assert`: it panics when `ok` is false.  The state it is given is the state
of the caller, which it leaves alone. -/
def assert {α : Type} (ok : Bool) (s : α) : Outcome α :=
  if !ok then .panicked s "assertion failed" else .returned s

/-! ## Test for WasRun TestCase -/

/-- The struct `TestCaseTest`: only the embedded `TestCase`. -/
structure TestCaseTest where
  Name : String
  deriving DecidableEq, Repr

/-- The method `Test_TestCase_TemplateMethod`. -/
def TestCaseTest.Test_TestCase_TemplateMethod (t : TestCaseTest) : Outcome TestCaseTest :=
  let test := WasRun.new "TestMethod"
  let result := TestResult.fresh
  match RunTest WasRun.iTestCase test result with
  | .panicked _ v => .panicked t v
  | .returned (test, _) => assert (decide (test.Log = "SetUp TestMethod TearDown ")) t

/-- The method `Test_TestCase_Result`. -/
def TestCaseTest.Test_TestCase_Result (t : TestCaseTest) : Outcome TestCaseTest :=
  let test := WasRun.new "TestMethod"
  let result := TestResult.fresh
  match RunTest WasRun.iTestCase test result with
  | .panicked _ v => .panicked t v
  | .returned (_, result) => assert (decide (result.Summary = "1 run, 0 failed")) t

/-- The method `Test_TestCase_FailedResult`. -/
def TestCaseTest.Test_TestCase_FailedResult (t : TestCaseTest) : Outcome TestCaseTest :=
  let test := WasRun.new "TestBrokenMethod"
  let result := TestResult.fresh
  match RunTest WasRun.iTestCase test result with
  | .panicked _ v => .panicked t v
  | .returned (_, result) => assert (decide (result.Summary = "1 run, 1 failed")) t

/-- The method `Test_TestResult_FailedResultFormatting`. -/
def TestCaseTest.Test_TestResult_FailedResultFormatting (t : TestCaseTest) :
    Outcome TestCaseTest :=
  let result := TestResult.fresh
  let result := result.TestStarted
  let result := result.TestFailed
  assert (decide (result.Summary = "1 run, 1 failed")) t

/-- The method `Test_TestSuite`; its two `WasRun` objects live at the addresses 0 and 1 of a
heap of their own. -/
def TestCaseTest.Test_TestSuite (t : TestCaseTest) : Outcome TestCaseTest :=
  let suite : TestSuite := { Tests := [] }
  let suite := suite.Add 0
  let suite := suite.Add 1
  let result := TestResult.fresh
  match RunTests WasRun.iTestCase suite TddPart2.Test_TestSuite.heap result with
  | .panicked _ v => .panicked t v
  | .returned (_, result) => assert (decide (result.Summary = "2 run, 1 failed")) t

/-- The method set of `*TestCaseTest` as `reflect` sees it: the promoted `GetName` and the
five tests; there is no `SetUp` and no `TearDown`. -/
def TestCaseTest.MethodByName (name : String) : Option (TestCaseTest → Outcome TestCaseTest) :=
  if name = "GetName" then some (fun t => .returned t)
  else if name = "Test_TestCase_TemplateMethod" then
    some TestCaseTest.Test_TestCase_TemplateMethod
  else if name = "Test_TestCase_Result" then some TestCaseTest.Test_TestCase_Result
  else if name = "Test_TestCase_FailedResult" then some TestCaseTest.Test_TestCase_FailedResult
  else if name = "Test_TestResult_FailedResultFormatting" then
    some TestCaseTest.Test_TestResult_FailedResultFormatting
  else if name = "Test_TestSuite" then some TestCaseTest.Test_TestSuite
  else none

/-- The type `*TestCaseTest` as an `ITestCase`. -/
def TestCaseTest.iTestCase : ITestCase TestCaseTest where
  GetName := fun t => t.Name
  MethodByName := fun _ name => TestCaseTest.MethodByName name

/-! ## Main -/

/-- The five objects `main` allocates, at the addresses 0 to 4 (the heap being total, the
last one stands at every further address). -/
def main.heap : Heap TestCaseTest :=
  fun a =>
    if a = 0 then { Name := "Test_TestCase_TemplateMethod" }
    else if a = 1 then { Name := "Test_TestCase_Result" }
    else if a = 2 then { Name := "Test_TestCase_FailedResult" }
    else if a = 3 then { Name := "Test_TestResult_FailedResultFormatting" }
    else { Name := "Test_TestSuite" }

/-- The suite `main` assembles. -/
def main.suite : TestSuite :=
  TestSuite.Add (TestSuite.Add (TestSuite.Add (TestSuite.Add (TestSuite.Add
    { Tests := [] } 0) 1) 2) 3) 4

/-- The function `main`: it runs the suite into a fresh result; the state it leaves is what
`fmt.Println(result.Summary())` wrote to standard output (nothing when the run panics). -/
def main : Outcome String :=
  match RunTests TestCaseTest.iTestCase main.suite main.heap TestResult.fresh with
  | .panicked _ v => .panicked "" v
  | .returned (_, result) => .returned (result.Summary ++ "\n")

/-! ### Test cases with do-nothing hooks -/

/-- The same test case with a do-nothing hook in the place of each hook it lacks: a lookup
of `SetUp` or `TearDown` that finds nothing finds a method that returns at once; every
other lookup is unchanged. -/
def withNoopHooks {σ : Type} (c : ITestCase σ) : ITestCase σ where
  GetName := c.GetName
  MethodByName := fun t name =>
    if (name = "SetUp" ∨ name = "TearDown") ∧ (c.MethodByName t name).isNone
    then some (fun s => .returned s)
    else c.MethodByName t name

/-! ### A test case that passes once

A test case whose outcome depends on what an earlier run left in the object, as a user of the
framework could write it:

    type Once struct {
        TestCase
        Done bool
    }
    func (o *Once) TestMethod() {
        assert(!o.Done)
        o.Done = true
    }
-/

/-- The struct `Once`. -/
structure Once where
  Name : String
  Done : Bool
  deriving DecidableEq, Repr

/-- The method `(*Once).TestMethod`. -/
def Once.TestMethod (o : Once) : Outcome Once :=
  match assert (!o.Done) o with
  | .panicked o v => .panicked o v
  | .returned o => .returned { o with Done := true }

/-- The type `*Once` as an `ITestCase`. -/
def Once.iTestCase : ITestCase Once where
  GetName := fun o => o.Name
  MethodByName := fun _ name =>
    if name = "GetName" then some (fun o => .returned o)
    else if name = "TestMethod" then some Once.TestMethod
    else none

/-- The counters satisfy the invariant of the spec: `failCount <= runCount`. -/
def TestResult.inv (r : TestResult) : Prop := r.ErrorCount ≤ r.RunCount

instance (r : TestResult) : Decidable r.inv := by unfold TestResult.inv; infer_instance

/-- The left-to-right fold the loop of `RunTests` performs: one step takes the outcome so far
and, unless it is a panic, runs the next test case on the heap and the result it left. -/
def foldStep {σ : Type} (c : ITestCase σ) (acc : Outcome (Heap σ × TestResult)) (test : Nat) :
    Outcome (Heap σ × TestResult) :=
  match acc with
  | .panicked p v => .panicked p v
  | .returned (h, result) =>
    match RunTest c (h test) result with
    | .panicked (t, result) v => .panicked (Function.update h test t, result) v
    | .returned (t, result) => .returned (Function.update h test t, result)

/-- Running a second piece of code after a first one: a panic of the first skips the
second. -/
def Outcome.andThen {α : Type} (first : Outcome α) (second : α → Outcome α) : Outcome α :=
  match first with
  | .panicked a v => .panicked a v
  | .returned a => second a

/-! ## Basic facts -/

theorem wrapInt_of_isInt {x : Int} (h : isInt x) : wrapInt x = x := by
  unfold isInt minInt maxInt at h
  unfold wrapInt
  rw [Int.emod_eq_of_lt (by omega) (by omega)]
  omega

theorem wrapInt_add_one {x : Int} (h : isInt x) (hmax : x ≠ maxInt) : wrapInt (x + 1) = x + 1 := by
  apply wrapInt_of_isInt
  unfold isInt minInt maxInt at *
  omega

theorem wrapInt_wrapInt_add (x y : Int) : wrapInt (wrapInt x + y) = wrapInt (x + y) := by
  unfold wrapInt
  have h : (x + 2 ^ 63) % 2 ^ 64 - 2 ^ 63 + y + 2 ^ 63 = (x + 2 ^ 63) % 2 ^ 64 + y := by ring
  rw [h]
  congr 1
  rw [Int.emod_add_emod]
  congr 1
  ring

theorem runTestMethod_eq {σ : Type} (c : ITestCase σ) (t : σ) (r : TestResult) :
    RunTestMethod c t r = .returned ((testMethodStep c t).state,
      if (testMethodStep c t).recover ≠ none then r.TestFailed else r) := rfl

theorem runTest_eq {σ : Type} (c : ITestCase σ) (t : σ) (r : TestResult) :
    RunTest c t r =
      match hook c "SetUp" t with
      | .panicked t1 v => .panicked (t1, r.TestStarted) v
      | .returned t1 =>
        match hook c "TearDown" (testMethodStep c t1).state with
        | .panicked t3 v => .panicked (t3,
            if (testMethodStep c t1).recover ≠ none then r.TestStarted.TestFailed
            else r.TestStarted) v
        | .returned t3 => .returned (t3,
            if (testMethodStep c t1).recover ≠ none then r.TestStarted.TestFailed
            else r.TestStarted) := by
  unfold RunTest hook
  simp only [runTestMethod_eq]

theorem isInt_wrapInt (x : Int) : isInt (wrapInt x) := by
  unfold isInt minInt maxInt wrapInt
  have h1 := Int.emod_nonneg (x + 2 ^ 63) (show (2 ^ 64 : Int) ≠ 0 by norm_num)
  have h2 := Int.emod_lt_of_pos (x + 2 ^ 63) (show (0 : Int) < 2 ^ 64 by norm_num)
  constructor <;> omega

theorem valid_plus (r : TestResult) (a b : Int) : (r.plus a b).valid :=
  ⟨isInt_wrapInt _, isInt_wrapInt _⟩

theorem plus_zero_zero {r : TestResult} (hr : r.valid) : r.plus 0 0 = r := by
  obtain ⟨x, y⟩ := r
  simp only [TestResult.plus, add_zero, wrapInt_of_isInt hr.1, wrapInt_of_isInt hr.2]

theorem plus_plus (r : TestResult) (a b a' b' : Int) :
    (r.plus a b).plus a' b' = r.plus (a + a') (b + b') := by
  simp only [TestResult.plus, wrapInt_wrapInt_add, add_assoc]

theorem testStarted_eq_plus {r : TestResult} (hr : r.valid) : r.TestStarted = r.plus 1 0 := by
  obtain ⟨x, y⟩ := r
  simp only [TestResult.TestStarted, TestResult.plus, add_zero, wrapInt_of_isInt hr.2]

theorem testStarted_testFailed_eq_plus (r : TestResult) :
    r.TestStarted.TestFailed = r.plus 1 1 := rfl

theorem runTest_eq_lifecycle {σ : Type} (c : ITestCase σ) (t : σ) (r : TestResult) :
    RunTest c t r =
      match lifecycle c t with
      | .returned t3 => .returned (t3,
          if methodFails c t then r.TestStarted.TestFailed else r.TestStarted)
      | .panicked t3 v => .panicked (t3,
          if methodFails c t then r.TestStarted.TestFailed else r.TestStarted) v := by
  rw [runTest_eq]
  unfold lifecycle methodFails
  cases hs : hook c "SetUp" t with
  | panicked t1 v => simp
  | returned t1 =>
    simp only
    cases hook c "TearDown" (testMethodStep c t1).state with
    | panicked t3 v => simp
    | returned t3 => simp

theorem runTest_eq_plus {σ : Type} (c : ITestCase σ) (t : σ) {r : TestResult} (hr : r.valid) :
    RunTest c t r =
      match lifecycle c t with
      | .returned t3 => .returned (t3, r.plus 1 (if methodFails c t then 1 else 0))
      | .panicked t3 v => .panicked (t3, r.plus 1 (if methodFails c t then 1 else 0)) v := by
  rw [runTest_eq_lifecycle]
  cases lifecycle c t <;> cases methodFails c t <;>
    simp [testStarted_testFailed_eq_plus, ← testStarted_eq_plus hr]

theorem runLoop_returned {σ : Type} (c : ITestCase σ) (tests : List Nat) :
    ∀ (h : Heap σ) (r : TestResult), r.valid → hooksComplete c tests h = true →
      runLoop c tests h r
        = .returned (heapAfter c tests h, r.plus tests.length (failures c tests h)) := by
  induction tests with
  | nil =>
    intro h r hr _
    simp [runLoop, heapAfter, failures, plus_zero_zero hr]
  | cons a rest ih =>
    intro h r hr hc
    simp only [hooksComplete, Bool.and_eq_true] at hc
    obtain ⟨h1, h2⟩ := hc
    unfold runLoop
    rw [runTest_eq_plus c (h a) hr]
    cases hl : lifecycle c (h a) with
    | panicked t3 v => simp [hl, Outcome.isReturned] at h1
    | returned t3 =>
      simp only [hl, Outcome.state] at h2
      simp only
      rw [ih _ _ (valid_plus _ _ _) h2, plus_plus]
      simp only [heapAfter, failures, hl, Outcome.state, List.length_cons]
      congr 3
      · push_cast
        ring
      · split <;> simp

theorem runLoop_isReturned {σ : Type} (c : ITestCase σ) (tests : List Nat) :
    ∀ (h : Heap σ) (r : TestResult),
      (runLoop c tests h r).isReturned = hooksComplete c tests h := by
  induction tests with
  | nil => intro h r; rfl
  | cons a rest ih =>
    intro h r
    unfold runLoop
    rw [runTest_eq_lifecycle]
    cases hl : lifecycle c (h a) with
    | panicked t3 v => simp [hooksComplete, hl, Outcome.isReturned]
    | returned t3 =>
      simp only [hooksComplete, hl, Outcome.isReturned, Outcome.state, Bool.true_and]
      exact ih _ _

theorem runLoop_runCount {σ : Type} (c : ITestCase σ) (tests : List Nat) :
    ∀ (h : Heap σ) (r : TestResult), isInt r.RunCount →
      (runLoop c tests h r).state.2.RunCount
        = wrapInt (r.RunCount + startedCount c tests h) := by
  induction tests with
  | nil =>
    intro h r hr
    simp [runLoop, startedCount, Outcome.state, wrapInt_of_isInt hr]
  | cons a rest ih =>
    intro h r hr
    unfold runLoop
    rw [runTest_eq_lifecycle]
    have hrc : (if methodFails c (h a) = true then r.TestStarted.TestFailed
        else r.TestStarted).RunCount = wrapInt (r.RunCount + 1) := by
      split <;> rfl
    cases hl : lifecycle c (h a) with
    | panicked t3 v =>
      simp only [Outcome.state, startedCount, hl, Outcome.isReturned, hrc]
      simp
    | returned t3 =>
      simp only
      rw [ih _ _ (by rw [hrc]; exact isInt_wrapInt _), hrc, wrapInt_wrapInt_add]
      simp only [startedCount, hl, Outcome.isReturned, Outcome.state, if_true]
      congr 1
      push_cast
      ring

theorem startedCount_le {σ : Type} (c : ITestCase σ) (tests : List Nat) :
    ∀ (h : Heap σ), startedCount c tests h ≤ tests.length := by
  induction tests with
  | nil => intro h; simp [startedCount]
  | cons a rest ih =>
    intro h
    simp only [startedCount, List.length_cons]
    split
    · have := ih (Function.update h a (lifecycle c (h a)).state)
      omega
    · omega

theorem startedCount_of_hooksComplete {σ : Type} (c : ITestCase σ) (tests : List Nat) :
    ∀ (h : Heap σ), hooksComplete c tests h = true → startedCount c tests h = tests.length := by
  induction tests with
  | nil => intro h _; simp [startedCount]
  | cons a rest ih =>
    intro h hc
    simp only [hooksComplete, Bool.and_eq_true] at hc
    simp only [startedCount, hc.1, if_true, List.length_cons, ih _ hc.2]
    omega

theorem failures_congr {σ : Type} (c : ITestCase σ) (tests : List Nat) :
    ∀ (h h' : Heap σ), (∀ a ∈ tests, h a = h' a) →
      failures c tests h = failures c tests h' := by
  induction tests with
  | nil => intro h h' _; rfl
  | cons a rest ih =>
    intro h h' hh
    have ha : h a = h' a := hh a (List.mem_cons_self _ _)
    simp only [failures, ha]
    congr 1
    apply ih
    intro b hb
    by_cases hba : b = a
    · subst hba; simp
    · simp [Function.update, hba, hh b (List.mem_cons_of_mem _ hb)]

theorem failures_of_nodup {σ : Type} (c : ITestCase σ) (tests : List Nat) :
    ∀ (h : Heap σ), tests.Nodup →
      failures c tests h = (tests.filter (fun a => methodFails c (h a))).length := by
  induction tests with
  | nil => intro h _; rfl
  | cons a rest ih =>
    intro h hn
    rw [List.nodup_cons] at hn
    have hcongr : failures c rest (Function.update h a (lifecycle c (h a)).state)
        = failures c rest h := by
      apply failures_congr
      intro b hb
      have : b ≠ a := fun hba => hn.1 (hba ▸ hb)
      simp [Function.update, this]
    simp only [failures, hcongr, ih h hn.2, List.filter_cons]
    split
    · simp; omega
    · simp

/-! ## One test case -/

/-- C1: a test case whose named test method panics, and whose `SetUp` and `TearDown` (when
present) complete normally, makes `RunTest` return normally with `RunCount + 1` and
`ErrorCount + 1` (Go's addition; the mathematical sum whenever the counter is an `int` below
the largest one).  A `WasRun` named "TestBrokenMethod" run into a fresh result gives the
summary "1 run, 1 failed". -/
theorem C1_runTest_isolates_panicking_method {σ : Type} (c : ITestCase σ) (t t1 t2 t3 : σ)
    (r : TestResult) (method : σ → Outcome σ) (v : String)
    (hSetUp : hook c "SetUp" t = .returned t1)
    (hMethod : c.MethodByName t1 (c.GetName t1) = some method)
    (hPanic : method t1 = .panicked t2 v)
    (hTearDown : hook c "TearDown" t2 = .returned t3) :
    RunTest c t r = .returned (t3, r.plus 1 1)
    ∧ (isInt r.RunCount → r.RunCount ≠ maxInt →
        (RunTest c t r).state.2.RunCount = r.RunCount + 1)
    ∧ (isInt r.ErrorCount → r.ErrorCount ≠ maxInt →
        (RunTest c t r).state.2.ErrorCount = r.ErrorCount + 1)
    ∧ (RunTest WasRun.iTestCase (WasRun.new "TestBrokenMethod") TestResult.fresh).isReturned
        = true
    ∧ (RunTest WasRun.iTestCase (WasRun.new "TestBrokenMethod")
        TestResult.fresh).state.2.Summary = "1 run, 1 failed" := by
  have hstep : testMethodStep c t1 = .panicked t2 v := by
    simp [testMethodStep, hMethod, reflectCall, hPanic]
  have hrun : RunTest c t r = .returned (t3, r.plus 1 1) := by
    rw [runTest_eq, hSetUp]
    simp only [hstep, Outcome.state, hTearDown, Outcome.recover]
    rfl
  refine ⟨hrun, ?_, ?_, by decide, by decide⟩
  · intro h1 h2
    rw [hrun]
    exact wrapInt_add_one h1 h2
  · intro h1 h2
    rw [hrun]
    exact wrapInt_add_one h1 h2

/-- Witness of C1: the `WasRun` named "TestBrokenMethod" of `Test_TestCase_FailedResult`. -/
theorem C1_witness :
    (RunTest WasRun.iTestCase (WasRun.new "TestBrokenMethod") TestResult.fresh
        = .returned ({ Name := "TestBrokenMethod", wasRun := 1, Log := "SetUp TearDown " },
            TestResult.fresh.plus 1 1))
    ∧ TestResult.fresh.plus 1 1 = { RunCount := 1, ErrorCount := 1 }
    ∧ (TestResult.fresh.plus 1 1).Summary = "1 run, 1 failed" :=
  ⟨(C1_runTest_isolates_panicking_method WasRun.iTestCase (WasRun.new "TestBrokenMethod")
      { Name := "TestBrokenMethod", wasRun := -1, Log := "SetUp " }
      { Name := "TestBrokenMethod", wasRun := -1, Log := "SetUp " }
      { Name := "TestBrokenMethod", wasRun := 1, Log := "SetUp TearDown " }
      TestResult.fresh WasRun.TestBrokenMethod "Broken Method"
      (by decide) rfl (by decide) (by decide)).1, by decide, by decide⟩

/-- C2: a test case whose named test method completes normally, and whose `SetUp` and
`TearDown` (when present) complete normally, makes `RunTest` return normally with
`RunCount + 1` and `ErrorCount` unchanged.  A `WasRun` named "TestMethod" run into a fresh
result gives the summary "1 run, 0 failed". -/
theorem C2_runTest_passing_method {σ : Type} (c : ITestCase σ) (t t1 t2 t3 : σ)
    (r : TestResult) (method : σ → Outcome σ)
    (hSetUp : hook c "SetUp" t = .returned t1)
    (hMethod : c.MethodByName t1 (c.GetName t1) = some method)
    (hPass : method t1 = .returned t2)
    (hTearDown : hook c "TearDown" t2 = .returned t3) :
    RunTest c t r = .returned (t3, { r with RunCount := wrapInt (r.RunCount + 1) })
    ∧ (RunTest c t r).state.2.ErrorCount = r.ErrorCount
    ∧ (isInt r.RunCount → r.RunCount ≠ maxInt →
        (RunTest c t r).state.2.RunCount = r.RunCount + 1)
    ∧ (RunTest WasRun.iTestCase (WasRun.new "TestMethod") TestResult.fresh).isReturned = true
    ∧ (RunTest WasRun.iTestCase (WasRun.new "TestMethod")
        TestResult.fresh).state.2.Summary = "1 run, 0 failed" := by
  have hstep : testMethodStep c t1 = .returned t2 := by
    simp [testMethodStep, hMethod, reflectCall, hPass]
  have hrun : RunTest c t r = .returned (t3, { r with RunCount := wrapInt (r.RunCount + 1) }) := by
    rw [runTest_eq, hSetUp]
    simp only [hstep, Outcome.state, hTearDown, Outcome.recover]
    rfl
  refine ⟨hrun, by rw [hrun]; rfl, ?_, by decide, by decide⟩
  intro h1 h2
  rw [hrun]
  exact wrapInt_add_one h1 h2

/-- Witness of C2: the `WasRun` named "TestMethod" of `Test_TestCase_Result`. -/
theorem C2_witness :
    (RunTest WasRun.iTestCase (WasRun.new "TestMethod") TestResult.fresh
        = .returned ({ Name := "TestMethod", wasRun := 1, Log := "SetUp TestMethod TearDown " },
            { RunCount := 1, ErrorCount := 0 }))
    ∧ ({ RunCount := 1, ErrorCount := 0 } : TestResult).Summary = "1 run, 0 failed" :=
  ⟨(C2_runTest_passing_method WasRun.iTestCase (WasRun.new "TestMethod")
      { Name := "TestMethod", wasRun := -1, Log := "SetUp " }
      { Name := "TestMethod", wasRun := 1, Log := "SetUp TestMethod " }
      { Name := "TestMethod", wasRun := 1, Log := "SetUp TestMethod TearDown " }
      TestResult.fresh WasRun.TestMethod
      (by decide) rfl (by decide) (by decide)).1, by decide⟩

/-- C3: when the test case has `SetUp` and `TearDown` and all three methods complete
normally, the object `RunTest` leaves behind is the one obtained by applying `SetUp`, then the
named test method, then `TearDown`, each once, to the object it was given, whatever the
three methods do.  For every `WasRun` named "TestMethod", whatever its fields held before,
the `Log` after `RunTest` is "SetUp TestMethod TearDown ". -/
theorem C3_runTest_template_method {σ : Type} (c : ITestCase σ) (t t1 t2 t3 : σ)
    (r : TestResult) (setUp method tearDown : σ → Outcome σ)
    (hSetUp : c.MethodByName t "SetUp" = some setUp)
    (hSetUpRet : setUp t = .returned t1)
    (hMethod : c.MethodByName t1 (c.GetName t1) = some method)
    (hMethodRet : method t1 = .returned t2)
    (hTearDown : c.MethodByName t2 "TearDown" = some tearDown)
    (hTearDownRet : tearDown t2 = .returned t3) :
    RunTest c t r = .returned (t3, r.TestStarted)
    ∧ (∀ (w : WasRun) (r0 : TestResult), w.Name = "TestMethod" →
        (RunTest WasRun.iTestCase w r0).isReturned = true
        ∧ (RunTest WasRun.iTestCase w r0).state.1.Log = "SetUp TestMethod TearDown ") := by
  constructor
  · have hstep : testMethodStep c t1 = .returned t2 := by
      simp [testMethodStep, hMethod, reflectCall, hMethodRet]
    rw [runTest_eq]
    simp [hook, hSetUp, reflectCall, hSetUpRet, hstep, Outcome.state, hTearDown, hTearDownRet,
      Outcome.recover]
  · intro w r0 hw
    obtain ⟨n, x, l⟩ := w
    simp only at hw
    subst hw
    constructor <;>
    · rw [runTest_eq]
      simp [hook, WasRun.iTestCase, WasRun.MethodByName, reflectCall, WasRun.SetUp,
        testMethodStep, WasRun.GetName, WasRun.TestMethod, Outcome.state, WasRun.TearDown,
        Outcome.isReturned]
      try decide

/-- Witness of C3: the `WasRun` named "TestMethod" of `Test_TestCase_TemplateMethod`. -/
theorem C3_witness :
    RunTest WasRun.iTestCase (WasRun.new "TestMethod") TestResult.fresh
        = .returned ({ Name := "TestMethod", wasRun := 1, Log := "SetUp TestMethod TearDown " },
            TestResult.fresh.TestStarted)
    ∧ (RunTest WasRun.iTestCase { Name := "TestMethod", wasRun := 7, Log := "stale " }
        TestResult.fresh).state.1.Log = "SetUp TestMethod TearDown " :=
  have h := C3_runTest_template_method WasRun.iTestCase (WasRun.new "TestMethod")
      { Name := "TestMethod", wasRun := -1, Log := "SetUp " }
      { Name := "TestMethod", wasRun := 1, Log := "SetUp TestMethod " }
      { Name := "TestMethod", wasRun := 1, Log := "SetUp TestMethod TearDown " }
      TestResult.fresh WasRun.SetUp WasRun.TestMethod WasRun.TearDown
      rfl (by decide) rfl (by decide) rfl (by decide)
  ⟨h.1, (h.2 { Name := "TestMethod", wasRun := 7, Log := "stale " } TestResult.fresh rfl).2⟩

/-! ## Suites -/

/-- C4: for a suite whose hooks complete normally, `RunTests` returns normally, having added
the number of test cases to `RunCount` and the number of test cases whose test-method
invocation fails to `ErrorCount` of the one shared result (Go's addition; the mathematical
sum when it is an `int`).  For a suite of distinct objects that number is the number of
entries whose test method fails from the heap as given.  The suite of `Test_TestSuite` run
into a fresh result gives the summary "2 run, 1 failed". -/
theorem C4_runTests_accumulates {σ : Type} (c : ITestCase σ) (s : TestSuite) (h : Heap σ)
    (r : TestResult) (hr : r.valid) (hHooks : hooksComplete c s.Tests h = true) :
    RunTests c s h r
      = .returned (heapAfter c s.Tests h, r.plus s.Tests.length (failures c s.Tests h))
    ∧ (s.Tests.Nodup →
        failures c s.Tests h = (s.Tests.filter (fun a => methodFails c (h a))).length)
    ∧ (r.RunCount + s.Tests.length ≤ maxInt →
        (RunTests c s h r).state.2.RunCount = r.RunCount + s.Tests.length)
    ∧ (r.ErrorCount + failures c s.Tests h ≤ maxInt →
        (RunTests c s h r).state.2.ErrorCount = r.ErrorCount + failures c s.Tests h)
    ∧ (RunTests WasRun.iTestCase Test_TestSuite.suite Test_TestSuite.heap
        TestResult.fresh).isReturned = true
    ∧ (RunTests WasRun.iTestCase Test_TestSuite.suite Test_TestSuite.heap
        TestResult.fresh).state.2.Summary = "2 run, 1 failed" := by
  have hrun := runLoop_returned c s.Tests h r hr hHooks
  have h1 := hr.1
  have h2 := hr.2
  unfold isInt minInt maxInt at h1 h2
  refine ⟨hrun, failures_of_nodup c s.Tests h, ?_, ?_, by decide, by decide⟩
  · intro hle
    unfold RunTests
    rw [hrun]
    apply wrapInt_of_isInt
    unfold isInt minInt maxInt at *
    omega
  · intro hle
    unfold RunTests
    rw [hrun]
    apply wrapInt_of_isInt
    unfold isInt minInt maxInt at *
    omega

/-- Witness of C4: the suite of `Test_TestSuite`, two distinct objects of which one fails. -/
theorem C4_witness :
    RunTests WasRun.iTestCase Test_TestSuite.suite Test_TestSuite.heap TestResult.fresh
      = .returned (heapAfter WasRun.iTestCase [0, 1] Test_TestSuite.heap,
          TestResult.fresh.plus 2 1)
    ∧ (TestResult.fresh.plus 2 1).Summary = "2 run, 1 failed"
    ∧ failures WasRun.iTestCase [0, 1] Test_TestSuite.heap
        = ([0, 1].filter (fun a => methodFails WasRun.iTestCase (Test_TestSuite.heap a))).length :=
  have h := C4_runTests_accumulates WasRun.iTestCase Test_TestSuite.suite Test_TestSuite.heap
    TestResult.fresh (by decide) (by decide)
  ⟨h.1, by decide, h.2.1 (by decide)⟩

/-- Counterexample to C5 as stated: in a suite of two `BrokenSetUp` test cases the panic of
the first `SetUp` leaves `RunTests`; it does not return, and the second test case is never
started (`RunCount` is 1, not 2). -/
theorem C5_counterexample :
    (RunTests BrokenSetUp.iTestCase (TestSuite.Add (TestSuite.Add { Tests := [] } 0) 1)
        (fun _ => { Name := "TestMethod" }) TestResult.fresh).isReturned = false
    ∧ (RunTests BrokenSetUp.iTestCase (TestSuite.Add (TestSuite.Add { Tests := [] } 0) 1)
        (fun _ => { Name := "TestMethod" }) TestResult.fresh).recover = some "Broken SetUp"
    ∧ (RunTests BrokenSetUp.iTestCase (TestSuite.Add (TestSuite.Add { Tests := [] } 0) 1)
        (fun _ => { Name := "TestMethod" }) TestResult.fresh).state.2.RunCount = 1
    ∧ ¬ ((RunTests BrokenSetUp.iTestCase (TestSuite.Add (TestSuite.Add { Tests := [] } 0) 1)
          (fun _ => { Name := "TestMethod" }) TestResult.fresh).isReturned = true
        ∧ (RunTests BrokenSetUp.iTestCase (TestSuite.Add (TestSuite.Add { Tests := [] } 0) 1)
          (fun _ => { Name := "TestMethod" }) TestResult.fresh).state.2.RunCount
            = TestResult.fresh.RunCount + 2) := by
  decide

/-- C5, amended: no failure of a test method is fatal.  For a suite whose hooks complete
normally, whatever the test methods do (return, panic, or not resolve), `RunTests` returns to
its caller and every test case is started and counted: `RunCount` grows by the number of test
cases. -/
theorem C5_runTests_survives_test_method_failures {σ : Type} (c : ITestCase σ) (s : TestSuite)
    (h : Heap σ) (r : TestResult) (hr : isInt r.RunCount)
    (hHooks : hooksComplete c s.Tests h = true) :
    (RunTests c s h r).isReturned = true
    ∧ (RunTests c s h r).state.2.RunCount = wrapInt (r.RunCount + s.Tests.length)
    ∧ (r.RunCount + s.Tests.length ≤ maxInt →
        (RunTests c s h r).state.2.RunCount = r.RunCount + s.Tests.length) := by
  have hcount : (RunTests c s h r).state.2.RunCount = wrapInt (r.RunCount + s.Tests.length) := by
    unfold RunTests
    rw [runLoop_runCount c s.Tests h r hr, startedCount_of_hooksComplete c s.Tests h hHooks]
  refine ⟨?_, hcount, ?_⟩
  · unfold RunTests
    rw [runLoop_isReturned, hHooks]
  · intro hle
    rw [hcount]
    apply wrapInt_of_isInt
    unfold isInt minInt maxInt at *
    omega

/-- Witness of C5 (amended): the suite of `Test_TestSuite`, whose second test method
panics. -/
theorem C5_witness :
    (RunTests WasRun.iTestCase Test_TestSuite.suite Test_TestSuite.heap
        TestResult.fresh).isReturned = true
    ∧ (RunTests WasRun.iTestCase Test_TestSuite.suite Test_TestSuite.heap
        TestResult.fresh).state.2.RunCount = 2 :=
  have h := C5_runTests_survives_test_method_failures WasRun.iTestCase Test_TestSuite.suite
    Test_TestSuite.heap TestResult.fresh (by decide) (by decide)
  ⟨h.1, h.2.2 (by decide)⟩

/-! ## The summary line -/

theorem digitByte_eq_digitChar {d : Nat} (hd : d < 10) : digitByte d = Nat.digitChar d := by
  interval_cases d <;> rfl

theorem fmtDigits_eq (fuel : Nat) : ∀ (u : Nat) (buf : List Char), u ≤ fuel →
    fmtDigits fuel u buf = decimalNat u ++ buf := by
  induction fuel with
  | zero =>
    intro u buf hu
    obtain rfl : u = 0 := by omega
    rfl
  | succ fuel ih =>
    intro u buf hu
    unfold fmtDigits
    by_cases h10 : u ≥ 10
    · rw [if_pos h10, ih (u / 10) _ (by omega)]
      have hmod : u - u / 10 * 10 = u % 10 := by omega
      have hq : u / 10 ≠ 0 := by omega
      have hu0 : u ≠ 0 := by omega
      rw [hmod, digitByte_eq_digitChar (Nat.mod_lt _ (by norm_num))]
      simp only [decimalNat, hq, hu0, if_false]
      rw [Nat.digits_def' (by norm_num) (by omega : 0 < u)]
      simp
    · rw [if_neg h10]
      by_cases hu0 : u = 0
      · subst hu0; rfl
      · simp only [decimalNat, hu0, if_false]
        rw [Nat.digits_of_lt 10 u hu0 (by omega)]
        simp [digitByte_eq_digitChar (by omega : u < 10)]

theorem fmtInteger_eq (v : Int) : fmtInteger v = (decimal v).data := by
  simp only [fmtInteger, decimal, fmtDigits_eq _ _ [] (le_refl _), List.append_nil]

theorem sprintf_summary (a b : Int) :
    Sprintf "%d run, %d failed" [a, b] = decimal a ++ " run, " ++ decimal b ++ " failed" := by
  have h : Sprintf "%d run, %d failed" [a, b]
      = String.mk (fmtInteger a ++ " run, ".toList ++ fmtInteger b ++ " failed".toList) := by
    simp [Sprintf, doPrintf]
  rw [h, fmtInteger_eq, fmtInteger_eq]
  apply String.ext
  simp

theorem testFailed_eq_plus {r : TestResult} (hr : r.valid) : r.TestFailed = r.plus 0 1 := by
  obtain ⟨x, y⟩ := r
  simp only [TestResult.TestFailed, TestResult.plus, add_zero, wrapInt_of_isInt hr.1]

theorem applyCalls_eq_plus (calls : List Call) : ∀ (r : TestResult), r.valid →
    applyCalls calls r
      = r.plus (calls.count Call.TestStarted) (calls.count Call.TestFailed) := by
  induction calls with
  | nil =>
    intro r hr
    simp [applyCalls, plus_zero_zero hr]
  | cons call rest ih =>
    intro r hr
    have hstep : applyCalls (call :: rest) r = applyCalls rest (call.apply r) := rfl
    rw [hstep]
    cases call with
    | TestStarted =>
      simp only [Call.apply, testStarted_eq_plus hr]
      rw [ih _ (valid_plus _ _ _), plus_plus]
      rw [List.count_cons_self,
        List.count_cons_of_ne (by decide : Call.TestFailed ≠ Call.TestStarted)]
      congr 1
      · push_cast; ring
      · ring
    | TestFailed =>
      simp only [Call.apply, testFailed_eq_plus hr]
      rw [ih _ (valid_plus _ _ _), plus_plus]
      rw [List.count_cons_self,
        List.count_cons_of_ne (by decide : Call.TestStarted ≠ Call.TestFailed)]
      congr 1
      · ring
      · push_cast; ring

/-- C6: for every `TestResult`, `Summary()` is the decimal rendering of `RunCount`, then
" run, ", then the decimal rendering of `ErrorCount`, then " failed", nothing else.  A fresh
result after `TestStarted` and `TestFailed` gives "1 run, 1 failed". -/
theorem C6_summary_format (r : TestResult) :
    r.Summary = decimal r.RunCount ++ " run, " ++ decimal r.ErrorCount ++ " failed"
    ∧ TestResult.fresh.TestStarted.TestFailed.Summary = "1 run, 1 failed"
    ∧ decimal 0 = "0" ∧ decimal 10 = "10" ∧ decimal (-305) = "-305" := by
  refine ⟨sprintf_summary _ _, by decide, ?_, ?_, ?_⟩
  · simp [decimal, decimalNat]
  · simp [decimal, decimalNat]
    rfl
  · simp [decimal, decimalNat]
    rfl

/-- C7: after any sequence of `TestStarted` and `TestFailed` calls on a fresh `TestResult`,
in any order, `Summary()` is "n run, m failed" with n the number of `TestStarted` calls and m
the number of `TestFailed` calls, in decimal; n and m being numbers an `int` can hold. -/
theorem C7_summary_counts_calls (calls : List Call)
    (hn : (calls.count Call.TestStarted : Int) ≤ maxInt)
    (hm : (calls.count Call.TestFailed : Int) ≤ maxInt) :
    applyCalls calls TestResult.fresh
      = { RunCount := calls.count Call.TestStarted, ErrorCount := calls.count Call.TestFailed }
    ∧ (applyCalls calls TestResult.fresh).Summary
      = decimal (calls.count Call.TestStarted) ++ " run, "
          ++ decimal (calls.count Call.TestFailed) ++ " failed" := by
  have hval : TestResult.fresh.valid := by decide
  have hst : applyCalls calls TestResult.fresh
      = { RunCount := calls.count Call.TestStarted,
          ErrorCount := calls.count Call.TestFailed } := by
    rw [applyCalls_eq_plus calls _ hval]
    simp only [TestResult.plus, TestResult.fresh, zero_add]
    rw [wrapInt_of_isInt, wrapInt_of_isInt]
    · unfold isInt minInt maxInt at *
      omega
    · unfold isInt minInt maxInt at *
      omega
  refine ⟨hst, ?_⟩
  rw [hst]
  exact sprintf_summary _ _

/-- Witness of C7: two starts with a failure in between. -/
theorem C7_witness :
    applyCalls [Call.TestStarted, Call.TestFailed, Call.TestStarted] TestResult.fresh
      = { RunCount := 2, ErrorCount := 1 }
    ∧ (applyCalls [Call.TestStarted, Call.TestFailed, Call.TestStarted]
        TestResult.fresh).Summary = "2 run, 1 failed" :=
  ⟨(C7_summary_counts_calls [Call.TestStarted, Call.TestFailed, Call.TestStarted]
      (by decide) (by decide)).1, by decide⟩

/-! ## The counters -/

/-- Counterexample to C8 as stated: `TestFailed` alone, on a fresh `TestResult`, leaves
`ErrorCount` 1 above `RunCount` 0. -/
theorem C8_counterexample :
    (applyCalls [Call.TestFailed] TestResult.fresh).ErrorCount = 1
    ∧ (applyCalls [Call.TestFailed] TestResult.fresh).RunCount = 0
    ∧ ¬ ((applyCalls [Call.TestFailed] TestResult.fresh).ErrorCount
          ≤ (applyCalls [Call.TestFailed] TestResult.fresh).RunCount) := by
  decide

/-- C8, amended: when at no point of the sequence more `TestFailed` than `TestStarted` calls
have been made (and the number of `TestStarted` calls is one an `int` can hold),
`ErrorCount <= RunCount` holds after every call of the sequence: after the first `k` calls,
for every `k`. -/
theorem C8_errorCount_le_runCount (calls : List Call)
    (hBalanced : ∀ k ≤ calls.length,
      (calls.take k).count Call.TestFailed ≤ (calls.take k).count Call.TestStarted)
    (hn : (calls.count Call.TestStarted : Int) ≤ maxInt) (k : Nat) :
    (applyCalls (calls.take k) TestResult.fresh).ErrorCount
      ≤ (applyCalls (calls.take k) TestResult.fresh).RunCount := by
  have hle : (calls.take k).count Call.TestFailed ≤ (calls.take k).count Call.TestStarted := by
    by_cases hk : k ≤ calls.length
    · exact hBalanced k hk
    · rw [List.take_of_length_le (by omega)]
      have := hBalanced calls.length (le_refl _)
      rwa [List.take_length] at this
  have hcount : (calls.take k).count Call.TestStarted ≤ calls.count Call.TestStarted :=
    List.Sublist.count_le (List.take_sublist k calls) _
  have hval : TestResult.fresh.valid := by decide
  rw [applyCalls_eq_plus _ _ hval]
  simp only [TestResult.plus, TestResult.fresh, zero_add]
  rw [wrapInt_of_isInt, wrapInt_of_isInt]
  · exact_mod_cast hle
  · unfold isInt minInt maxInt at *
    omega
  · unfold isInt minInt maxInt at *
    omega

/-- Witness of C8 (amended): the calls of two test cases, the second one failing, observed
after the last call. -/
theorem C8_witness :
    (applyCalls ([Call.TestStarted, Call.TestStarted, Call.TestFailed].take 3)
        TestResult.fresh).ErrorCount
      ≤ (applyCalls ([Call.TestStarted, Call.TestStarted, Call.TestFailed].take 3)
        TestResult.fresh).RunCount :=
  C8_errorCount_le_runCount [Call.TestStarted, Call.TestStarted, Call.TestFailed]
    (by decide) (by decide) 3

/-! ## The start is always counted, the teardown always runs -/

/-- C9: every invocation of `RunTest` adds exactly 1 to `RunCount` (Go's addition; the
mathematical sum below the largest `int`), whatever `SetUp`, the test method and `TearDown`
do, also when `RunTest` itself panics.  The start is recorded first: when `SetUp` panics,
the panic leaves `RunTest` with the start recorded and nothing else changed in the result.
An example is `BrokenSetUp`, where `RunTest` panics with `RunCount` 1. -/
theorem C9_runTest_counts_start {σ : Type} (c : ITestCase σ) (t : σ) (r : TestResult) :
    (RunTest c t r).state.2.RunCount = wrapInt (r.RunCount + 1)
    ∧ (isInt r.RunCount → r.RunCount ≠ maxInt →
        (RunTest c t r).state.2.RunCount = r.RunCount + 1)
    ∧ (∀ (t1 : σ) (v : String), hook c "SetUp" t = .panicked t1 v →
        RunTest c t r = .panicked (t1, r.TestStarted) v)
    ∧ RunTest BrokenSetUp.iTestCase { Name := "TestMethod" } TestResult.fresh
        = .panicked ({ Name := "TestMethod" }, { RunCount := 1, ErrorCount := 0 })
            "Broken SetUp" := by
  have hcount : (RunTest c t r).state.2.RunCount = wrapInt (r.RunCount + 1) := by
    rw [runTest_eq_lifecycle]
    cases lifecycle c t <;> cases methodFails c t <;> rfl
  refine ⟨hcount, ?_, ?_, by decide⟩
  · intro h1 h2
    rw [hcount]
    exact wrapInt_add_one h1 h2
  · intro t1 v hs
    rw [runTest_eq, hs]

/-- Witness of C9: a `SetUp` that panics and a test method that panics, each counted as one
run. -/
theorem C9_witness :
    (RunTest BrokenSetUp.iTestCase { Name := "TestMethod" } TestResult.fresh).state.2.RunCount
      = 0 + 1
    ∧ (RunTest WasRun.iTestCase (WasRun.new "TestBrokenMethod")
        { RunCount := 41, ErrorCount := 7 }).state.2.RunCount = 41 + 1 :=
  ⟨(C9_runTest_counts_start BrokenSetUp.iTestCase { Name := "TestMethod" }
      TestResult.fresh).2.1 (by decide) (by decide),
   (C9_runTest_counts_start WasRun.iTestCase (WasRun.new "TestBrokenMethod")
      { RunCount := 41, ErrorCount := 7 }).2.1 (by decide) (by decide)⟩

/-- C10: when the test case has a `TearDown` and `SetUp` (when present) completes normally,
`RunTest` calls `TearDown` once, on the object the test-method step leaves behind, and ends
the way that call ends; this holds whether the test method returned, panicked, or could not
be resolved, the three ways the step can go.  A `WasRun` named "TestBrokenMethod" has the
`Log` "SetUp TearDown " after `RunTest`. -/
theorem C10_tearDown_after_test_method {σ : Type} (c : ITestCase σ) (t t1 : σ)
    (r : TestResult) (tearDown : σ → Outcome σ)
    (hSetUp : hook c "SetUp" t = .returned t1)
    (hTearDown : c.MethodByName (testMethodStep c t1).state "TearDown" = some tearDown) :
    (RunTest c t r).state.1 = (tearDown (testMethodStep c t1).state).state
    ∧ (RunTest c t r).isReturned = (tearDown (testMethodStep c t1).state).isReturned
    ∧ (RunTest c t r).recover = (tearDown (testMethodStep c t1).state).recover
    ∧ (∀ (method : σ → Outcome σ) (t2 : σ), c.MethodByName t1 (c.GetName t1) = some method →
        method t1 = .returned t2 → (testMethodStep c t1).state = t2)
    ∧ (∀ (method : σ → Outcome σ) (t2 : σ) (v : String),
        c.MethodByName t1 (c.GetName t1) = some method →
        method t1 = .panicked t2 v → (testMethodStep c t1).state = t2)
    ∧ (c.MethodByName t1 (c.GetName t1) = none → (testMethodStep c t1).state = t1)
    ∧ (RunTest WasRun.iTestCase (WasRun.new "TestBrokenMethod")
        TestResult.fresh).state.1.Log = "SetUp TearDown " := by
  have hhook : hook c "TearDown" (testMethodStep c t1).state
      = tearDown (testMethodStep c t1).state := by
    simp [hook, hTearDown, reflectCall]
  have hrun := runTest_eq c t r
  rw [hSetUp] at hrun
  simp only [hhook] at hrun
  refine ⟨?_, ?_, ?_, ?_, ?_, ?_, by decide⟩
  · rw [hrun]
    cases tearDown (testMethodStep c t1).state <;> rfl
  · rw [hrun]
    cases tearDown (testMethodStep c t1).state <;> rfl
  · rw [hrun]
    cases tearDown (testMethodStep c t1).state <;> rfl
  · intro method t2 hm hret
    simp [testMethodStep, hm, reflectCall, hret, Outcome.state]
  · intro method t2 v hm hp
    simp [testMethodStep, hm, reflectCall, hp, Outcome.state]
  · intro hm
    simp [testMethodStep, hm, reflectCall, Outcome.state]

/-- Witness of C10: the `WasRun` named "TestBrokenMethod", whose `TearDown` runs after the
panic of the test method. -/
theorem C10_witness :
    (RunTest WasRun.iTestCase (WasRun.new "TestBrokenMethod") TestResult.fresh).state.1
      = (WasRun.TearDown (testMethodStep WasRun.iTestCase
          { Name := "TestBrokenMethod", wasRun := -1, Log := "SetUp " }).state).state
    ∧ (WasRun.TearDown (testMethodStep WasRun.iTestCase
          { Name := "TestBrokenMethod", wasRun := -1, Log := "SetUp " }).state).state
      = { Name := "TestBrokenMethod", wasRun := 1, Log := "SetUp TearDown " } :=
  ⟨(C10_tearDown_after_test_method WasRun.iTestCase (WasRun.new "TestBrokenMethod")
      { Name := "TestBrokenMethod", wasRun := -1, Log := "SetUp " } TestResult.fresh
      WasRun.TearDown (by decide) rfl).1, by decide⟩

/-! ## Names that do not resolve, hooks that are missing -/

/-- C11: a test case whose name resolves to no method is treated like one whose test
method raised an error.  With `SetUp` and `TearDown` (when present) completing normally,
`RunTest` returns normally, `RunCount` and `ErrorCount` are both increased by 1 (Go's addition;
the mathematical sum below the largest `int`), and the object left behind is the one
`TearDown` makes of what `SetUp` left.  The outcome is the very one of any test case with the
same hooks whose test method panics without touching the object. -/
theorem C11_unresolved_name_is_a_failure {σ : Type} (c : ITestCase σ) (t t1 t3 : σ)
    (r : TestResult)
    (hSetUp : hook c "SetUp" t = .returned t1)
    (hNone : c.MethodByName t1 (c.GetName t1) = none)
    (hTearDown : hook c "TearDown" t1 = .returned t3) :
    RunTest c t r = .returned (t3, r.plus 1 1)
    ∧ (isInt r.RunCount → r.RunCount ≠ maxInt →
        (RunTest c t r).state.2.RunCount = r.RunCount + 1)
    ∧ (isInt r.ErrorCount → r.ErrorCount ≠ maxInt →
        (RunTest c t r).state.2.ErrorCount = r.ErrorCount + 1)
    ∧ (∀ (c' : ITestCase σ) (method : σ → Outcome σ) (v : String),
        hook c' "SetUp" t = .returned t1 →
        c'.MethodByName t1 (c'.GetName t1) = some method →
        method t1 = .panicked t1 v →
        hook c' "TearDown" t1 = .returned t3 →
        RunTest c' t r = RunTest c t r) := by
  have hstep : testMethodStep c t1
      = .panicked t1 "reflect: call of reflect.Value.Call on zero Value" := by
    simp [testMethodStep, hNone, reflectCall]
  have hrun : RunTest c t r = .returned (t3, r.plus 1 1) := by
    rw [runTest_eq, hSetUp]
    simp only [hstep, Outcome.state, hTearDown, Outcome.recover]
    rfl
  refine ⟨hrun, ?_, ?_, ?_⟩
  · intro h1 h2
    rw [hrun]
    exact wrapInt_add_one h1 h2
  · intro h1 h2
    rw [hrun]
    exact wrapInt_add_one h1 h2
  · intro c' method v hS hM hP hT
    have hstep' : testMethodStep c' t1 = .panicked t1 v := by
      simp [testMethodStep, hM, reflectCall, hP]
    rw [hrun, runTest_eq, hS]
    simp only [hstep', Outcome.state, hT, Outcome.recover]
    rfl

/-- Witness of C11: a `WasRun` named "NoSuchMethod", a name no method of `*WasRun` has. -/
theorem C11_witness :
    RunTest WasRun.iTestCase (WasRun.new "NoSuchMethod") TestResult.fresh
      = .returned ({ Name := "NoSuchMethod", wasRun := 1, Log := "SetUp TearDown " },
          TestResult.fresh.plus 1 1)
    ∧ (TestResult.fresh.plus 1 1).Summary = "1 run, 1 failed" :=
  ⟨(C11_unresolved_name_is_a_failure WasRun.iTestCase (WasRun.new "NoSuchMethod")
      { Name := "NoSuchMethod", wasRun := -1, Log := "SetUp " }
      { Name := "NoSuchMethod", wasRun := 1, Log := "SetUp TearDown " }
      TestResult.fresh (by decide) rfl (by decide)).1, by decide⟩

theorem hook_withNoopHooks {σ : Type} (c : ITestCase σ) (t : σ) (name : String)
    (hname : name = "SetUp" ∨ name = "TearDown") :
    hook (withNoopHooks c) name t = hook c name t := by
  unfold hook withNoopHooks
  cases hm : c.MethodByName t name with
  | none => simp [hname, hm, reflectCall]
  | some f => simp [hm, reflectCall]

theorem testMethodStep_withNoopHooks {σ : Type} (c : ITestCase σ) (t : σ)
    (h1 : c.GetName t ≠ "SetUp") (h2 : c.GetName t ≠ "TearDown") :
    testMethodStep (withNoopHooks c) t = testMethodStep c t := by
  unfold testMethodStep withNoopHooks
  simp [h1, h2]

/-- C12: a missing hook is skipped silently.  Without `SetUp` the run starts from the object
as given; without `TearDown` it ends with the object the test-method step left; in both
cases, and with both hooks missing, `RunTest` returns normally with `RunCount + 1` and with
`ErrorCount + 1` exactly when the test-method invocation fails.  The outcome is that of the
same test case with do-nothing hooks in the place of the missing ones (the test case not
being named after a hook, where the added hook would also be the test method). -/
theorem C12_missing_hooks_are_skipped {σ : Type} (c : ITestCase σ) (t : σ) (r : TestResult) :
    (c.MethodByName t "SetUp" = none →
      c.MethodByName (testMethodStep c t).state "TearDown" = none →
      RunTest c t r = .returned ((testMethodStep c t).state,
        if (testMethodStep c t).recover ≠ none then r.TestStarted.TestFailed
        else r.TestStarted))
    ∧ (c.MethodByName t "SetUp" = none → ∀ t3 : σ,
        hook c "TearDown" (testMethodStep c t).state = .returned t3 →
        RunTest c t r = .returned (t3,
          if (testMethodStep c t).recover ≠ none then r.TestStarted.TestFailed
          else r.TestStarted))
    ∧ (∀ t1 : σ, hook c "SetUp" t = .returned t1 →
        c.MethodByName (testMethodStep c t1).state "TearDown" = none →
        RunTest c t r = .returned ((testMethodStep c t1).state,
          if (testMethodStep c t1).recover ≠ none then r.TestStarted.TestFailed
          else r.TestStarted))
    ∧ (c.GetName (hook c "SetUp" t).state ≠ "SetUp" →
        c.GetName (hook c "SetUp" t).state ≠ "TearDown" →
        RunTest (withNoopHooks c) t r = RunTest c t r) := by
  refine ⟨?_, ?_, ?_, ?_⟩
  · intro hS hT
    rw [runTest_eq]
    simp [hook, hS, hT]
  · intro hS t3 hT
    rw [runTest_eq]
    have hs : hook c "SetUp" t = .returned t := by simp [hook, hS]
    rw [hs]
    simp only [hT]
  · intro t1 hS hT
    rw [runTest_eq, hS]
    simp [hook, hT]
  · intro h1 h2
    rw [runTest_eq, runTest_eq, hook_withNoopHooks c t "SetUp" (Or.inl rfl)]
    cases hs : hook c "SetUp" t with
    | panicked t1 v => rfl
    | returned t1 =>
      rw [hs] at h1 h2
      simp only [Outcome.state] at h1 h2
      simp only [testMethodStep_withNoopHooks c t1 h1 h2,
        hook_withNoopHooks c _ "TearDown" (Or.inr rfl)]

/-- Witness of C12: a `TestCaseTest`, which has neither `SetUp` nor `TearDown`. -/
theorem C12_witness :
    RunTest TestCaseTest.iTestCase { Name := "Test_TestResult_FailedResultFormatting" }
        TestResult.fresh
      = .returned ((testMethodStep TestCaseTest.iTestCase
            { Name := "Test_TestResult_FailedResultFormatting" }).state,
          if (testMethodStep TestCaseTest.iTestCase
            { Name := "Test_TestResult_FailedResultFormatting" }).recover ≠ none
          then TestResult.fresh.TestStarted.TestFailed else TestResult.fresh.TestStarted)
    ∧ RunTest (withNoopHooks TestCaseTest.iTestCase)
        { Name := "Test_TestResult_FailedResultFormatting" } TestResult.fresh
      = RunTest TestCaseTest.iTestCase { Name := "Test_TestResult_FailedResultFormatting" }
        TestResult.fresh
    ∧ (RunTest TestCaseTest.iTestCase { Name := "Test_TestResult_FailedResultFormatting" }
        TestResult.fresh).state.2 = { RunCount := 1, ErrorCount := 0 } :=
  have h := C12_missing_hooks_are_skipped TestCaseTest.iTestCase
    { Name := "Test_TestResult_FailedResultFormatting" } TestResult.fresh
  ⟨h.1 rfl rfl, h.2.2.2 (by decide) (by decide), by decide⟩

/-! ## Assembling and running suites -/

/-- C13: `Add(t)` makes the sequence of the suite the previous sequence followed by `t`: the
length grows by exactly 1, every earlier element stays at its index, `t` is the last element,
and `t` is appended also when the suite holds it already (one more occurrence, no dedup). -/
theorem C13_add_appends (s : TestSuite) (t : Nat) :
    (s.Add t).Tests = s.Tests ++ [t]
    ∧ (s.Add t).Tests.length = s.Tests.length + 1
    ∧ (∀ i : Nat, i < s.Tests.length → (s.Add t).Tests[i]? = s.Tests[i]?)
    ∧ (s.Add t).Tests[s.Tests.length]? = some t
    ∧ (s.Add t).Tests.take s.Tests.length = s.Tests
    ∧ (s.Add t).Tests.count t = s.Tests.count t + 1
    ∧ (TestSuite.Add (TestSuite.Add { Tests := [] } 7) 7).Tests = [7, 7] := by
  refine ⟨rfl, ?_, ?_, ?_, ?_, ?_, rfl⟩
  · simp [TestSuite.Add]
  · intro i hi
    simp [TestSuite.Add, List.getElem?_append_left hi]
  · simp [TestSuite.Add]
  · simp [TestSuite.Add]
  · simp [TestSuite.Add]

theorem foldl_foldStep_panicked {σ : Type} (c : ITestCase σ) (tests : List Nat)
    (p : Heap σ × TestResult) (v : String) :
    tests.foldl (foldStep c) (.panicked p v) = .panicked p v := by
  induction tests with
  | nil => rfl
  | cons a rest ih => simpa [List.foldl_cons, foldStep] using ih

theorem runLoop_eq_foldl {σ : Type} (c : ITestCase σ) (tests : List Nat) :
    ∀ (h : Heap σ) (r : TestResult),
      runLoop c tests h r = tests.foldl (foldStep c) (.returned (h, r)) := by
  induction tests with
  | nil => intro h r; rfl
  | cons a rest ih =>
    intro h r
    rw [List.foldl_cons]
    unfold runLoop
    cases hrun : RunTest c (h a) r with
    | panicked p v =>
      obtain ⟨t, r'⟩ := p
      simp only [foldStep, hrun, foldl_foldStep_panicked]
    | returned p =>
      obtain ⟨t, r'⟩ := p
      simp only [foldStep, hrun, ih]

theorem runLoop_append {σ : Type} (c : ITestCase σ) (a b : List Nat) (h : Heap σ)
    (r : TestResult) :
    runLoop c (a ++ b) h r = (runLoop c a h r).andThen (fun p => runLoop c b p.1 p.2) := by
  rw [runLoop_eq_foldl, List.foldl_append, ← runLoop_eq_foldl]
  cases runLoop c a h r with
  | panicked p v => simp [Outcome.andThen, foldl_foldStep_panicked]
  | returned p => simp [Outcome.andThen, runLoop_eq_foldl]

/-- C14: `RunTests` is the left-to-right fold of `RunTest` over the sequence, in the order
of insertion; hence running the sequence `a` followed by `b` into a result is running `a` and
then running `b` on the heap and into the result `a` left (a panic in `a` leaving both). -/
theorem C14_runTests_is_left_fold {σ : Type} (c : ITestCase σ) (s : TestSuite) (a b : List Nat)
    (h : Heap σ) (r : TestResult) :
    RunTests c s h r = s.Tests.foldl (foldStep c) (.returned (h, r))
    ∧ RunTests c { Tests := a ++ b } h r
        = (RunTests c { Tests := a } h r).andThen
            (fun p => RunTests c { Tests := b } p.1 p.2)
    ∧ (∀ test : Nat, RunTests c (s.Add test) h r
        = (RunTests c s h r).andThen
            (fun p => RunTests c { Tests := [test] } p.1 p.2)) := by
  refine ⟨runLoop_eq_foldl c s.Tests h r, runLoop_append c a b h r, ?_⟩
  intro test
  exact runLoop_append c s.Tests [test] h r

/-- Witness of C13: adding to a suite of two test cases one it holds already. -/
theorem C13_witness :
    (TestSuite.Add { Tests := [3, 5] } 3).Tests = [3, 5, 3]
    ∧ (TestSuite.Add { Tests := [3, 5] } 3).Tests[1]? = some 5 :=
  have h := C13_add_appends { Tests := [3, 5] } 3
  ⟨h.1, h.2.2.1 1 (by decide)⟩

/-! ## Running a suite again -/

theorem wasRun_hook_setUp (w : WasRun) :
    hook WasRun.iTestCase "SetUp" w = .returned { w with wasRun := -1, Log := "SetUp " } := by
  simp [hook, WasRun.iTestCase, WasRun.MethodByName, reflectCall, WasRun.SetUp]

theorem wasRun_hook_tearDown (w : WasRun) :
    hook WasRun.iTestCase "TearDown" w
      = .returned { w with wasRun := 1, Log := w.Log ++ "TearDown " } := by
  simp [hook, WasRun.iTestCase, WasRun.MethodByName, reflectCall, WasRun.TearDown]

theorem wasRun_step_name (w : WasRun) :
    (testMethodStep WasRun.iTestCase w).state.Name = w.Name := by
  simp only [testMethodStep, WasRun.iTestCase, WasRun.MethodByName, WasRun.GetName]
  split_ifs <;>
    simp [reflectCall, Outcome.state, WasRun.SetUp, WasRun.TestMethod, WasRun.TestBrokenMethod,
      WasRun.TearDown]

theorem wasRun_step_recover (w w' : WasRun) (h : w.Name = w'.Name) :
    ((testMethodStep WasRun.iTestCase w).recover ≠ none)
      = ((testMethodStep WasRun.iTestCase w').recover ≠ none) := by
  simp only [testMethodStep, WasRun.iTestCase, WasRun.MethodByName, WasRun.GetName, h]
  split_ifs <;>
    simp [reflectCall, Outcome.recover, WasRun.SetUp, WasRun.TestMethod,
      WasRun.TestBrokenMethod, WasRun.TearDown]

theorem wasRun_lifecycle_returned (w : WasRun) :
    (lifecycle WasRun.iTestCase w).isReturned = true := by
  simp [lifecycle, wasRun_hook_setUp, wasRun_hook_tearDown, Outcome.isReturned]

theorem wasRun_lifecycle_name (w : WasRun) :
    (lifecycle WasRun.iTestCase w).state.Name = w.Name := by
  unfold lifecycle
  rw [wasRun_hook_setUp]
  simp only [wasRun_hook_tearDown, Outcome.state]
  exact wasRun_step_name { w with wasRun := -1, Log := "SetUp " }

theorem wasRun_methodFails_of_name (w w' : WasRun) (h : w.Name = w'.Name) :
    methodFails WasRun.iTestCase w = methodFails WasRun.iTestCase w' := by
  simp only [methodFails, wasRun_hook_setUp]
  congr 1
  exact wasRun_step_recover _ _ h

theorem runLoop_key_kept {σ κ : Type} (c : ITestCase σ) (key : σ → κ)
    (hKeep : ∀ t : σ, key (lifecycle c t).state = key t) (tests : List Nat) :
    ∀ (h : Heap σ) (r : TestResult) (a : Nat),
      key ((runLoop c tests h r).state.1 a) = key (h a) := by
  induction tests with
  | nil => intro h r a; rfl
  | cons b rest ih =>
    intro h r a
    have hupd : key (Function.update h b (lifecycle c (h b)).state a) = key (h a) := by
      by_cases hab : a = b
      · subst hab
        simp [hKeep]
      · simp [Function.update, hab]
    unfold runLoop
    rw [runTest_eq_lifecycle]
    cases hl : lifecycle c (h b) with
    | panicked t3 v =>
      rw [hl] at hupd
      simpa [Outcome.state] using hupd
    | returned t3 =>
      rw [hl] at hupd
      simp only
      rw [ih]
      simpa [Outcome.state] using hupd

theorem runLoop_result_of_keys {σ κ : Type} (c : ITestCase σ) (key : σ → κ)
    (hKeep : ∀ t : σ, key (lifecycle c t).state = key t)
    (hSame : ∀ t t' : σ, key t = key t' →
      methodFails c t = methodFails c t'
        ∧ (lifecycle c t).isReturned = (lifecycle c t').isReturned)
    (tests : List Nat) :
    ∀ (h h' : Heap σ) (r : TestResult), (∀ a, key (h a) = key (h' a)) →
      (runLoop c tests h r).state.2 = (runLoop c tests h' r).state.2
        ∧ (runLoop c tests h r).isReturned = (runLoop c tests h' r).isReturned := by
  induction tests with
  | nil => intro h h' r _; exact ⟨rfl, rfl⟩
  | cons b rest ih =>
    intro h h' r hk
    obtain ⟨hmf, hret⟩ := hSame (h b) (h' b) (hk b)
    have hk1 := hKeep (h b)
    have hk2 := hKeep (h' b)
    unfold runLoop
    rw [runTest_eq_lifecycle, runTest_eq_lifecycle, hmf]
    cases hl : lifecycle c (h b) with
    | panicked t3 v =>
      cases hl' : lifecycle c (h' b) with
      | panicked t3' v' => exact ⟨rfl, rfl⟩
      | returned t3' => simp [hl, hl', Outcome.isReturned] at hret
    | returned t3 =>
      cases hl' : lifecycle c (h' b) with
      | panicked t3' v' => simp [hl, hl', Outcome.isReturned] at hret
      | returned t3' =>
        simp only
        apply ih
        intro a
        rw [hl] at hk1
        rw [hl'] at hk2
        simp only [Outcome.state] at hk1 hk2
        by_cases hab : a = b
        · subst hab
          simp [hk1, hk2, hk a]
        · simp [Function.update, hab, hk a]

/-- Counterexample to C15 as stated: a suite of one `Once` test case.  The first run into a
fresh result gives "1 run, 0 failed"; the second run of the same instance, into another
fresh result, gives "1 run, 1 failed". -/
theorem C15_counterexample :
    (RunTests Once.iTestCase (TestSuite.Add { Tests := [] } 0)
        (fun _ => { Name := "TestMethod", Done := false })
        TestResult.fresh).state.2.Summary = "1 run, 0 failed"
    ∧ (RunTests Once.iTestCase (TestSuite.Add { Tests := [] } 0)
        (RunTests Once.iTestCase (TestSuite.Add { Tests := [] } 0)
          (fun _ => { Name := "TestMethod", Done := false }) TestResult.fresh).state.1
        TestResult.fresh).state.2.Summary = "1 run, 1 failed"
    ∧ ¬ ((RunTests Once.iTestCase (TestSuite.Add { Tests := [] } 0)
          (RunTests Once.iTestCase (TestSuite.Add { Tests := [] } 0)
            (fun _ => { Name := "TestMethod", Done := false }) TestResult.fresh).state.1
          TestResult.fresh).state.2.Summary
        = (RunTests Once.iTestCase (TestSuite.Add { Tests := [] } 0)
          (fun _ => { Name := "TestMethod", Done := false })
          TestResult.fresh).state.2.Summary) := by
  decide

/-- C15, amended: when what decides the outcome of a test case is a part of the object that
a run leaves unchanged (`key`, such as the name of a `WasRun`: it is kept by every run, and
objects with the same key agree on whether the hooks complete and whether the test method
fails), running the same suite twice, the second run on the objects as the first run left
them, each into its own fresh `TestResult`, yields the same counters and the same
`Summary()`, and the second run returns exactly when the first does. -/
theorem C15_rerun_gives_same_summary {σ κ : Type} (c : ITestCase σ) (key : σ → κ)
    (hKeep : ∀ t : σ, key (lifecycle c t).state = key t)
    (hSame : ∀ t t' : σ, key t = key t' →
      methodFails c t = methodFails c t'
        ∧ (lifecycle c t).isReturned = (lifecycle c t').isReturned)
    (s : TestSuite) (h : Heap σ) :
    (RunTests c s (RunTests c s h TestResult.fresh).state.1 TestResult.fresh).state.2.Summary
      = (RunTests c s h TestResult.fresh).state.2.Summary
    ∧ (RunTests c s (RunTests c s h TestResult.fresh).state.1 TestResult.fresh).state.2
      = (RunTests c s h TestResult.fresh).state.2
    ∧ (RunTests c s (RunTests c s h TestResult.fresh).state.1 TestResult.fresh).isReturned
      = (RunTests c s h TestResult.fresh).isReturned := by
  have hkeys : ∀ a, key ((RunTests c s h TestResult.fresh).state.1 a) = key (h a) :=
    runLoop_key_kept c key hKeep s.Tests h TestResult.fresh
  obtain ⟨h1, h2⟩ := runLoop_result_of_keys c key hKeep hSame s.Tests
    (RunTests c s h TestResult.fresh).state.1 h TestResult.fresh hkeys
  have h1' : (RunTests c s (RunTests c s h TestResult.fresh).state.1 TestResult.fresh).state.2
      = (RunTests c s h TestResult.fresh).state.2 := h1
  exact ⟨by rw [h1'], h1', h2⟩

/-- Witness of C15 (amended): the suite of `Test_TestSuite`, run twice; the key of a `WasRun`
is its name. -/
theorem C15_witness :
    (RunTests WasRun.iTestCase Test_TestSuite.suite
        (RunTests WasRun.iTestCase Test_TestSuite.suite Test_TestSuite.heap
          TestResult.fresh).state.1 TestResult.fresh).state.2.Summary
      = (RunTests WasRun.iTestCase Test_TestSuite.suite Test_TestSuite.heap
          TestResult.fresh).state.2.Summary
    ∧ (RunTests WasRun.iTestCase Test_TestSuite.suite Test_TestSuite.heap
          TestResult.fresh).state.2.Summary = "2 run, 1 failed" :=
  ⟨(C15_rerun_gives_same_summary WasRun.iTestCase WasRun.Name wasRun_lifecycle_name
      (fun w w' hn => ⟨wasRun_methodFails_of_name w w' hn,
        by rw [wasRun_lifecycle_returned, wasRun_lifecycle_returned]⟩)
      Test_TestSuite.suite Test_TestSuite.heap).1, by decide⟩

/-! ## A panic of `SetUp` -/

/-- C16: a panic of `SetUp` is not isolated.  `RunTest` passes it on to its caller with the
start recorded and `ErrorCount` unchanged, and the object is left exactly as `SetUp` left it
(neither the test method nor `TearDown` is applied).  Inside `RunTests` the panic ends the
run: after a prefix `pre` of test cases that ran normally, the run panics at that test case
with `RunCount` counting the prefix and that one test case, and the test cases behind it are
not started. -/
theorem C16_setUp_panic_propagates {σ : Type} (c : ITestCase σ) (t t1 : σ) (v : String)
    (r : TestResult) (hSetUp : hook c "SetUp" t = .panicked t1 v) :
    RunTest c t r = .panicked (t1, r.TestStarted) v
    ∧ (RunTest c t r).state.2.ErrorCount = r.ErrorCount
    ∧ (RunTest c t r).state.2.RunCount = wrapInt (r.RunCount + 1)
    ∧ (∀ (h : Heap σ) (a : Nat) (rest : List Nat), h a = t →
        RunTests c { Tests := a :: rest } h r
          = .panicked (Function.update h a t1, r.TestStarted) v)
    ∧ (∀ (h : Heap σ) (pre : List Nat) (a : Nat) (rest : List Nat), r.valid →
        hooksComplete c pre h = true → heapAfter c pre h a = t →
        RunTests c { Tests := pre ++ a :: rest } h r
          = .panicked (Function.update (heapAfter c pre h) a t1,
              (r.plus pre.length (failures c pre h)).TestStarted) v) := by
  have hrun : ∀ r' : TestResult, RunTest c t r' = .panicked (t1, r'.TestStarted) v := by
    intro r'
    rw [runTest_eq, hSetUp]
  refine ⟨hrun r, by rw [hrun]; rfl, by rw [hrun]; rfl, ?_, ?_⟩
  · intro h a rest ha
    unfold RunTests runLoop
    rw [ha, hrun]
  · intro h pre a rest hr hpre ha
    unfold RunTests
    rw [runLoop_append, runLoop_returned c pre h r hr hpre]
    simp only [Outcome.andThen]
    unfold runLoop
    rw [ha, hrun]

/-- Witness of C16: a suite of two `BrokenSetUp` test cases behind a prefix of none. -/
theorem C16_witness :
    RunTest BrokenSetUp.iTestCase { Name := "TestMethod" } TestResult.fresh
      = .panicked ({ Name := "TestMethod" }, TestResult.fresh.TestStarted) "Broken SetUp"
    ∧ (RunTests BrokenSetUp.iTestCase { Tests := [0, 1] } (fun _ => { Name := "TestMethod" })
        TestResult.fresh).state.2 = { RunCount := 1, ErrorCount := 0 } :=
  have h := C16_setUp_panic_propagates BrokenSetUp.iTestCase { Name := "TestMethod" }
    { Name := "TestMethod" } "Broken SetUp" TestResult.fresh (by decide)
  ⟨h.1, by rw [h.2.2.2.1 (fun _ => { Name := "TestMethod" }) 0 [1] rfl]; decide⟩

/-! ## At most one failure for each run of a test case -/

/-- C17: one `RunTest` records at most one failure.  `ErrorCount` is increased by exactly 1
(Go's addition) when the test-method step was reached and its invocation raised an error, and
is left as it was otherwise, whatever `SetUp` and `TearDown` do and however `RunTest` ends. -/
theorem C17_at_most_one_failure {σ : Type} (c : ITestCase σ) (t : σ) (r : TestResult) :
    (RunTest c t r).state.2.ErrorCount
      = (if methodFails c t then wrapInt (r.ErrorCount + 1) else r.ErrorCount)
    ∧ (methodFails c t = true ↔
        ∃ t1 : σ, hook c "SetUp" t = .returned t1 ∧ (testMethodStep c t1).recover ≠ none)
    ∧ ((RunTest c t r).state.2.ErrorCount = r.ErrorCount
        ∨ (RunTest c t r).state.2.ErrorCount = wrapInt (r.ErrorCount + 1))
    ∧ (isInt r.ErrorCount → r.ErrorCount ≠ maxInt →
        (RunTest c t r).state.2.ErrorCount
          = r.ErrorCount + (if methodFails c t then 1 else 0)) := by
  have hcount : (RunTest c t r).state.2.ErrorCount
      = (if methodFails c t then wrapInt (r.ErrorCount + 1) else r.ErrorCount) := by
    rw [runTest_eq_lifecycle]
    cases lifecycle c t <;> cases methodFails c t <;> rfl
  refine ⟨hcount, ?_, ?_, ?_⟩
  · unfold methodFails
    cases hs : hook c "SetUp" t with
    | panicked t1 v => simp
    | returned t1 => simp
  · rw [hcount]
    cases methodFails c t
    · exact Or.inl rfl
    · exact Or.inr rfl
  · intro h1 h2
    rw [hcount]
    cases methodFails c t
    · simp
    · simp [wrapInt_add_one h1 h2]

/-- Witness of C17: a passing and a failing `WasRun`, and a `BrokenSetUp`. -/
theorem C17_witness :
    (RunTest WasRun.iTestCase (WasRun.new "TestMethod")
        { RunCount := 3, ErrorCount := 2 }).state.2.ErrorCount = 2 + 0
    ∧ (RunTest WasRun.iTestCase (WasRun.new "TestBrokenMethod")
        { RunCount := 3, ErrorCount := 2 }).state.2.ErrorCount = 2 + 1
    ∧ (RunTest BrokenSetUp.iTestCase { Name := "TestMethod" }
        { RunCount := 3, ErrorCount := 2 }).state.2.ErrorCount = 2 + 0 :=
  ⟨(C17_at_most_one_failure WasRun.iTestCase (WasRun.new "TestMethod")
      { RunCount := 3, ErrorCount := 2 }).2.2.2 (by decide) (by decide),
   (C17_at_most_one_failure WasRun.iTestCase (WasRun.new "TestBrokenMethod")
      { RunCount := 3, ErrorCount := 2 }).2.2.2 (by decide) (by decide),
   (C17_at_most_one_failure BrokenSetUp.iTestCase { Name := "TestMethod" }
      { RunCount := 3, ErrorCount := 2 }).2.2.2 (by decide) (by decide)⟩

/-! ## Overflow of the counters -/

/-- Counterexample to C18 as stated: with `RunCount` at the largest `int`, which is not
negative, `TestStarted` wraps it to the smallest `int`: negative, and smaller than before.
`TestFailed` does the same to `ErrorCount`. -/
theorem C18_counterexample :
    (0 : Int) ≤ 9223372036854775807
    ∧ (TestResult.TestStarted { RunCount := 9223372036854775807, ErrorCount := 0 }).RunCount
        = -9223372036854775808
    ∧ ¬ (0 ≤ (TestResult.TestStarted
          { RunCount := 9223372036854775807, ErrorCount := 0 }).RunCount)
    ∧ ¬ (9223372036854775807 ≤ (TestResult.TestStarted
          { RunCount := 9223372036854775807, ErrorCount := 0 }).RunCount)
    ∧ (TestResult.TestFailed { RunCount := 0, ErrorCount := 9223372036854775807 }).ErrorCount
        = -9223372036854775808 := by
  decide

/-- C18, amended: for a `TestResult` whose counters are not negative, `TestStarted` with
`RunCount` below the largest `int`, and `TestFailed` with `ErrorCount` below the largest
`int`, leave both counters not negative and neither smaller than before: the counter
concerned grows by exactly 1, the other one is untouched. -/
theorem C18_counters_do_not_decrease (r : TestResult)
    (hRun : 0 ≤ r.RunCount) (hErr : 0 ≤ r.ErrorCount) :
    (r.RunCount < maxInt →
      r.TestStarted.RunCount = r.RunCount + 1 ∧ r.TestStarted.ErrorCount = r.ErrorCount
      ∧ 0 ≤ r.TestStarted.RunCount ∧ 0 ≤ r.TestStarted.ErrorCount
      ∧ r.RunCount ≤ r.TestStarted.RunCount ∧ r.ErrorCount ≤ r.TestStarted.ErrorCount)
    ∧ (r.ErrorCount < maxInt →
      r.TestFailed.ErrorCount = r.ErrorCount + 1 ∧ r.TestFailed.RunCount = r.RunCount
      ∧ 0 ≤ r.TestFailed.RunCount ∧ 0 ≤ r.TestFailed.ErrorCount
      ∧ r.RunCount ≤ r.TestFailed.RunCount ∧ r.ErrorCount ≤ r.TestFailed.ErrorCount) := by
  constructor
  · intro hlt
    have h : r.TestStarted.RunCount = r.RunCount + 1 := by
      apply wrapInt_add_one
      · unfold isInt minInt maxInt at *
        omega
      · omega
    have h' : r.TestStarted.ErrorCount = r.ErrorCount := rfl
    rw [h, h']
    refine ⟨rfl, rfl, ?_, hErr, ?_, le_refl _⟩ <;> omega
  · intro hlt
    have h : r.TestFailed.ErrorCount = r.ErrorCount + 1 := by
      apply wrapInt_add_one
      · unfold isInt minInt maxInt at *
        omega
      · omega
    have h' : r.TestFailed.RunCount = r.RunCount := rfl
    rw [h, h']
    refine ⟨rfl, rfl, hRun, ?_, le_refl _, ?_⟩ <;> omega

/-- Witness of C18 (amended): the counters 41 and 7. -/
theorem C18_witness :
    (TestResult.TestStarted { RunCount := 41, ErrorCount := 7 }).RunCount = 41 + 1
    ∧ (TestResult.TestFailed { RunCount := 41, ErrorCount := 7 }).ErrorCount = 7 + 1 :=
  have h := C18_counters_do_not_decrease { RunCount := 41, ErrorCount := 7 }
    (by decide) (by decide)
  ⟨(h.1 (by decide)).1, (h.2 (by decide)).1⟩

theorem runTest_inv {σ : Type} (c : ITestCase σ) (t : σ) (r : TestResult)
    (hr : r.valid) (hinv : r.inv) (hlt : r.RunCount < maxInt) :
    (RunTest c t r).state.2.valid ∧ (RunTest c t r).state.2.inv
      ∧ (RunTest c t r).state.2.RunCount = r.RunCount + 1 := by
  have hres : (RunTest c t r).state.2
      = (if methodFails c t then r.TestStarted.TestFailed else r.TestStarted) := by
    rw [runTest_eq_lifecycle]
    cases lifecycle c t <;> rfl
  obtain ⟨h1, h2⟩ := hr
  unfold TestResult.inv at hinv
  have hrun : wrapInt (r.RunCount + 1) = r.RunCount + 1 :=
    wrapInt_add_one h1 (by omega)
  have herr : wrapInt (r.ErrorCount + 1) = r.ErrorCount + 1 :=
    wrapInt_add_one h2 (by omega)
  rw [hres]
  unfold isInt minInt maxInt at *
  cases methodFails c t
  · simp only [Bool.false_eq_true, if_false, TestResult.valid, TestResult.inv,
      TestResult.TestStarted, hrun, and_true]
    unfold isInt minInt maxInt
    omega
  · simp only [if_true, TestResult.valid, TestResult.inv, TestResult.TestStarted,
      TestResult.TestFailed, hrun, herr, and_true]
    unfold isInt minInt maxInt
    omega

theorem runLoop_inv {σ : Type} (c : ITestCase σ) (tests : List Nat) :
    ∀ (h : Heap σ) (r : TestResult), r.valid → r.inv →
      r.RunCount + tests.length ≤ maxInt → (runLoop c tests h r).state.2.inv := by
  induction tests with
  | nil => intro h r _ hinv _; exact hinv
  | cons a rest ih =>
    intro h r hr hinv hle
    simp only [List.length_cons, Nat.cast_add, Nat.cast_one] at hle
    obtain ⟨hv, hi, hc⟩ := runTest_inv c (h a) r hr hinv (by omega)
    unfold runLoop
    cases hrun : RunTest c (h a) r with
    | panicked p v =>
      rw [hrun] at hi
      exact hi
    | returned p =>
      rw [hrun] at hv hi hc
      simp only [Outcome.state] at hv hi hc
      exact ih _ _ hv hi (by omega)

/-! ## The engine and the invariant of the counters -/

/-- Counterexample to C19 as stated: `RunCount` at the largest `int` and `ErrorCount` 0
satisfy `ErrorCount <= RunCount`; after `RunTest` of the passing `WasRun`, `RunCount` has
wrapped to the smallest `int` and is below `ErrorCount`. -/
theorem C19_counterexample :
    TestResult.inv { RunCount := 9223372036854775807, ErrorCount := 0 }
    ∧ (RunTest WasRun.iTestCase (WasRun.new "TestMethod")
        { RunCount := 9223372036854775807, ErrorCount := 0 }).state.2
        = { RunCount := -9223372036854775808, ErrorCount := 0 }
    ∧ ¬ (RunTest WasRun.iTestCase (WasRun.new "TestMethod")
        { RunCount := 9223372036854775807, ErrorCount := 0 }).state.2.inv := by
  decide

/-- C19, amended: as long as `RunCount` does not overflow, the engine preserves the invariant
of the counters.  For a `TestResult` with `ErrorCount <= RunCount`, the result after
`RunTest` (with `RunCount` below the largest `int`) and after `RunTests` (with `RunCount`
plus the number of test cases not above the largest `int`) satisfies `ErrorCount <= RunCount`
again, however the run ends. -/
theorem C19_engine_preserves_invariant {σ : Type} (c : ITestCase σ) (t : σ) (s : TestSuite)
    (h : Heap σ) (r : TestResult) (hr : r.valid) (hinv : r.ErrorCount ≤ r.RunCount) :
    (r.RunCount < maxInt →
      (RunTest c t r).state.2.ErrorCount ≤ (RunTest c t r).state.2.RunCount)
    ∧ (r.RunCount + s.Tests.length ≤ maxInt →
      (RunTests c s h r).state.2.ErrorCount ≤ (RunTests c s h r).state.2.RunCount) :=
  ⟨fun hlt => (runTest_inv c t r hr hinv hlt).2.1,
   fun hle => runLoop_inv c s.Tests h r hr hinv hle⟩

/-- Witness of C19 (amended): the failing `WasRun` and the suite of `Test_TestSuite`, into the
counters 1 and 1. -/
theorem C19_witness :
    (RunTest WasRun.iTestCase (WasRun.new "TestBrokenMethod")
        { RunCount := 1, ErrorCount := 1 }).state.2.ErrorCount
      ≤ (RunTest WasRun.iTestCase (WasRun.new "TestBrokenMethod")
        { RunCount := 1, ErrorCount := 1 }).state.2.RunCount
    ∧ (RunTests WasRun.iTestCase Test_TestSuite.suite Test_TestSuite.heap
        { RunCount := 1, ErrorCount := 1 }).state.2.ErrorCount
      ≤ (RunTests WasRun.iTestCase Test_TestSuite.suite Test_TestSuite.heap
        { RunCount := 1, ErrorCount := 1 }).state.2.RunCount :=
  have h := C19_engine_preserves_invariant WasRun.iTestCase (WasRun.new "TestBrokenMethod")
    Test_TestSuite.suite Test_TestSuite.heap { RunCount := 1, ErrorCount := 1 }
    (by decide) (by decide)
  ⟨h.1 (by decide), h.2 (by decide)⟩

/-! ## The self-test of the program -/

set_option maxRecDepth 100000 in
/-- C20: the suite `main` assembles, the five `TestCaseTest` cases, run into a fresh
`TestResult`, returns normally with the summary "5 run, 0 failed", which `main` prints; every
one of the five test methods returns, that is, its `assert` holds. -/
theorem C20_self_test_passes :
    main.suite.Tests = [0, 1, 2, 3, 4]
    ∧ (RunTests TestCaseTest.iTestCase main.suite main.heap TestResult.fresh).isReturned = true
    ∧ (RunTests TestCaseTest.iTestCase main.suite main.heap TestResult.fresh).state.2
        = { RunCount := 5, ErrorCount := 0 }
    ∧ (RunTests TestCaseTest.iTestCase main.suite main.heap
        TestResult.fresh).state.2.Summary = "5 run, 0 failed"
    ∧ main = .returned "5 run, 0 failed\n"
    ∧ (∀ t : TestCaseTest, t.Test_TestCase_TemplateMethod = .returned t)
    ∧ (∀ t : TestCaseTest, t.Test_TestCase_Result = .returned t)
    ∧ (∀ t : TestCaseTest, t.Test_TestCase_FailedResult = .returned t)
    ∧ (∀ t : TestCaseTest, t.Test_TestResult_FailedResultFormatting = .returned t)
    ∧ (∀ t : TestCaseTest, t.Test_TestSuite = .returned t) := by
  refine ⟨by decide, by decide, by decide, by decide, by decide, ?_, ?_, ?_, ?_, ?_⟩
  · intro t; rfl
  · intro t; rfl
  · intro t; rfl
  · intro t; rfl
  · intro t; rfl

end TddPart2
